import Mathlib

/-!
# goful: the workspace pane-layout engine (`filer/workspace.go`) and `Goful.Resize`

A shallow embedding of `Workspace`, of its pane-management, layout and drawing
methods and of `Goful.Resize` (`app/goful.go`), followed by theorems about them.

Conventions of the embedding.

* Go's `int` is modelled by `Int`.  Division and remainder are Go's (truncated,
  `Int.tdiv` / `Int.tmod`) and panic on a zero divisor.  Sums, differences and
  products of coordinates and sizes wrap around at 64 bits (`goAdd`, `goSub`,
  `goMul`), and so does the sum `w.Cursor += amount` of `MoveCursor`
  (`wrapInt`).  Arithmetic on pane counts and pane indices (`len(w.Dirs) - 1`,
  the neighbours of a valid cursor) cannot leave the range of `int` and is done
  in `Int`.
* A panic of the Go code (integer division by zero, index or slice bounds out of
  range, the `panic(err)` of `CreateDir`) is a value `Except.error` of type
  `GoPanic`.
* `w.Dirs` is a slice of pointers to distinct `Directory` values; it is modelled
  by the list of the values, each carrying its pointer identity `ptr`.
* Effects on the process and the screen stay outside the workspace value:
  `os.Chdir` in `attach` is taken to succeed, and `Draw` is modelled by the list
  of the `draw` calls it makes.
-/

namespace Goful

/-- Run-time panics the Go code of the workspace can raise; `homeDirError` is the
`panic(err)` of `CreateDir` on a failing `os.UserHomeDir`. -/
inductive GoPanic where
  | divideByZero
  | indexOutOfRange
  | sliceOutOfRange
  | homeDirError
  deriving DecidableEq, Repr

/-- Go integer division `a / b`: truncated, panics when `b = 0`. -/
def goDiv (a b : Int) : Except GoPanic Int :=
  if b = 0 then .error .divideByZero else .ok (Int.tdiv a b)

/-- Go integer remainder `a % b`: sign of the dividend, panics when `b = 0`. -/
def goMod (a b : Int) : Except GoPanic Int :=
  if b = 0 then .error .divideByZero else .ok (Int.tmod a b)

/-- Two's complement wrap-around of a 64-bit Go `int`. -/
def wrapInt (z : Int) : Int :=
  (z + 9223372036854775808) % 18446744073709551616 - 9223372036854775808

/-- Go's `a + b` on `int`: the sum wraps around at 64 bits. -/
def goAdd (a b : Int) : Int := wrapInt (a + b)

/-- Go's `a - b` on `int`: the difference wraps around at 64 bits. -/
def goSub (a b : Int) : Int := wrapInt (a - b)

/-- Go's `a * b` on `int`: the product wraps around at 64 bits. -/
def goMul (a b : Int) : Int := wrapInt (a * b)

/-- The constants `layoutTile ... layoutFullscreen` of `layoutType`. -/
inductive layoutType where
  | layoutTile
  | layoutTileTop
  | layoutTileBottom
  | layoutOneline
  | layoutOneColumn
  | layoutFullscreen
  deriving DecidableEq, Repr

/-- Modelled from the spec: `widget.Window`, the rectangle `(x, y, width, height)`
in terminal cells that `LeftTop`, `Width`, `Height` read and `Resize` sets. -/
structure Window where
  x : Int
  y : Int
  width : Int
  height : Int
  deriving DecidableEq, Repr

/-- Modelled from the spec: the pane `Directory`, an opaque unit with a readable
path and a render rectangle set by `Resize`; `ptr` is the identity of the
`*Directory` pointer stored in `Workspace.Dirs`. -/
structure Directory where
  ptr : Nat
  Path : String
  win : Window
  deriving DecidableEq, Repr

/-- The method `Directory.Resize(x, y, width, height)`. -/
def Directory.Resize (d : Directory) (x y width height : Int) : Directory :=
  { d with win := ⟨x, y, width, height⟩ }

/-- The struct `Workspace`. -/
structure Workspace where
  Window : Window
  Dirs : List Directory
  Layout : layoutType
  Title : String
  Cursor : Int
  deriving DecidableEq, Repr

/-- The Go expression `len(w.Dirs)`. -/
def Workspace.len (w : Workspace) : Int := (w.Dirs.length : Int)

/-- The Go index expression `ds[i]`, panicking when `i` is out of range. -/
def indexDir (ds : List Directory) (i : Int) : Except GoPanic Directory :=
  if 0 ≤ i then
    match ds[i.toNat]? with
    | some d => .ok d
    | none => .error .indexOutOfRange
  else .error .indexOutOfRange

/-- Replace the element at position `i` (no change past the end). -/
def setAt : List Directory → Nat → Directory → List Directory
  | [], _, _ => []
  | _ :: ds, 0, e => e :: ds
  | d :: ds, i + 1, e => d :: setAt ds i e

/-- The Go assignment `ds[i] = e`, panicking when `i` is out of range. -/
def assignDir (ds : List Directory) (i : Int) (e : Directory) :
    Except GoPanic (List Directory) :=
  if 0 ≤ i ∧ i < (ds.length : Int) then .ok (setAt ds i.toNat e)
  else .error .indexOutOfRange

/-- The effect of `ds[i].Resize(r.x, r.y, r.width, r.height)` on the panes, for an
index `i` in range: the pane at position `i` gets the rectangle `r`. -/
def resizePane (ds : List Directory) (i : Nat) (r : Window) : List Directory :=
  match ds[i]? with
  | some d => setAt ds i (d.Resize r.x r.y r.width r.height)
  | none => ds

/-- The call `ds[i].Resize(x, y, width, height)` through the pointer `ds[i]`,
panicking when `i` is out of range. -/
def resizeDir (ds : List Directory) (i : Int) (x y width height : Int) :
    Except GoPanic (List Directory) :=
  if 0 ≤ i ∧ i < (ds.length : Int) then .ok (resizePane ds i.toNat ⟨x, y, width, height⟩)
  else .error .indexOutOfRange

/-- The first `m` rounds of `for i, d := range ds[lo:hi] { d.Resize(f i) }`:
round `i` resizes the pane at position `lo + i` to the rectangle `f i`. -/
def resizeLoop (f : Int → Window) (lo : Nat) : Nat → List Directory → List Directory
  | 0, ds => ds
  | m + 1, ds => resizePane (resizeLoop f lo m ds) (lo + m) (f m)

/-- The loop `for i, d := range ds[lo:hi] { d.Resize(f i) }`; the slice expression
panics unless `0 <= lo <= hi <= len(ds)`. -/
def resizeRange (ds : List Directory) (lo hi : Int) (f : Int → Window) :
    Except GoPanic (List Directory) :=
  if 0 ≤ lo ∧ lo ≤ hi ∧ hi ≤ (ds.length : Int) then
    .ok (resizeLoop f lo.toNat (hi - lo).toNat ds)
  else .error .sliceOutOfRange

/-- The method `Workspace.LayoutTile`. -/
def Workspace.LayoutTile (w0 : Workspace) : Except GoPanic Workspace := do
  let w := { w0 with Layout := layoutType.layoutTile }
  let x := w.Window.x
  let y := w.Window.y
  let dlen := w.len
  if dlen < 2 then
    let ds ← resizeDir w.Dirs 0 x y w.Window.width w.Window.height
    return { w with Dirs := ds }
  let width ← goDiv w.Window.width 2
  let ds ← resizeDir w.Dirs 0 x y width w.Window.height
  let k := dlen - 1
  let height ← goDiv w.Window.height k
  let hodd ← goMod w.Window.height k
  let wodd ← goMod w.Window.width 2
  let ds ← resizeRange ds 1 (dlen - 1) (fun i => ⟨goAdd x width, goAdd y (goMul height i), goAdd width wodd, height⟩)
  let ds ← resizeDir ds (dlen - 1) (goAdd x width) (goAdd y (goMul height (k - 1)))
    (goAdd width wodd) (goAdd height hodd)
  return { w with Dirs := ds }

/-- The method `Workspace.LayoutTileTop`.  The branch `dlen < 2` resizes pane 0
and, having no `return`, falls through to the code below it. -/
def Workspace.LayoutTileTop (w0 : Workspace) : Except GoPanic Workspace := do
  let w := { w0 with Layout := layoutType.layoutTileTop }
  let dlen := w.len
  let x := w.Window.x
  let y := w.Window.y
  let ds ← (if dlen < 2 then resizeDir w.Dirs 0 x y w.Window.width w.Window.height
            else pure w.Dirs)
  let height ← goDiv w.Window.height 2
  let hodd ← goMod w.Window.height 2
  let ds ← resizeDir ds 0 x (goAdd y height) w.Window.width (goAdd height hodd)
  let k := dlen - 1
  let width ← goDiv w.Window.width k
  let ds ← resizeRange ds 1 (dlen - 1) (fun i => ⟨goAdd x (goMul width i), y, width, height⟩)
  let wodd ← goMod w.Window.width 2
  let ds ← resizeDir ds (dlen - 1) (goAdd x (goMul width (k - 1))) y (goAdd width wodd) height
  return { w with Dirs := ds }

/-- The method `Workspace.LayoutTileBottom`. -/
def Workspace.LayoutTileBottom (w0 : Workspace) : Except GoPanic Workspace := do
  let w := { w0 with Layout := layoutType.layoutTileBottom }
  let dlen := w.len
  let x := w.Window.x
  let y := w.Window.y
  if dlen < 2 then
    let ds ← resizeDir w.Dirs 0 x y w.Window.width w.Window.height
    return { w with Dirs := ds }
  let height ← goDiv w.Window.height 2
  let ds ← resizeDir w.Dirs 0 x y w.Window.width height
  let k := dlen - 1
  let width ← goDiv w.Window.width k
  let hodd ← goMod w.Window.height 2
  let ds ← resizeRange ds 1 (dlen - 1) (fun i => ⟨goAdd x (goMul width i), goAdd y height, width, goAdd height hodd⟩)
  let wodd ← goMod w.Window.width 2
  let ds ← resizeDir ds (dlen - 1) (goAdd x (goMul width (k - 1))) (goAdd y height)
    (goAdd width wodd) (goAdd height hodd)
  return { w with Dirs := ds }

/-- The method `Workspace.LayoutOneline`. -/
def Workspace.LayoutOneline (w0 : Workspace) : Except GoPanic Workspace := do
  let w := { w0 with Layout := layoutType.layoutOneline }
  let x := w.Window.x
  let y := w.Window.y
  let k := w.len
  let width ← goDiv w.Window.width k
  let ds ← resizeRange w.Dirs 0 (k - 1) (fun i => ⟨goAdd x (goMul width i), y, width, w.Window.height⟩)
  let wodd ← goMod w.Window.width k
  let ds ← resizeDir ds (k - 1) (goAdd x (goMul width (k - 1))) y (goAdd width wodd) w.Window.height
  return { w with Dirs := ds }

/-- The method `Workspace.LayoutOnecolumn`. -/
def Workspace.LayoutOnecolumn (w0 : Workspace) : Except GoPanic Workspace := do
  let w := { w0 with Layout := layoutType.layoutOneColumn }
  let x := w.Window.x
  let y := w.Window.y
  let k := w.len
  let height ← goDiv w.Window.height k
  let ds ← resizeRange w.Dirs 0 (k - 1) (fun i => ⟨x, goAdd y (goMul height i), w.Window.width, height⟩)
  let hodd ← goMod w.Window.height k
  let ds ← resizeDir ds (k - 1) x (goAdd y (goMul height (k - 1))) w.Window.width (goAdd height hodd)
  return { w with Dirs := ds }

/-- The method `Workspace.LayoutFullscreen`. -/
def Workspace.LayoutFullscreen (w0 : Workspace) : Except GoPanic Workspace := do
  let w := { w0 with Layout := layoutType.layoutFullscreen }
  let ds ← resizeRange w.Dirs 0 w.len
    (fun _ => ⟨w.Window.x, w.Window.y, w.Window.width, w.Window.height⟩)
  return { w with Dirs := ds }

/-- The method `Workspace.allocate`. -/
def Workspace.allocate (w : Workspace) : Except GoPanic Workspace :=
  match w.Layout with
  | .layoutTile => w.LayoutTile
  | .layoutTileTop => w.LayoutTileTop
  | .layoutTileBottom => w.LayoutTileBottom
  | .layoutOneline => w.LayoutOneline
  | .layoutOneColumn => w.LayoutOnecolumn
  | .layoutFullscreen => w.LayoutFullscreen

/-- The method `Workspace.Dir`: the index expression `w.Dirs[w.Cursor]`. -/
def Workspace.Dir (w : Workspace) : Except GoPanic Directory :=
  indexDir w.Dirs w.Cursor

/-- The method `Workspace.attach`: `os.Chdir(w.Dir().Path)`.  The change of the
process working directory is an effect outside the workspace value; what
remains is the evaluation of `w.Dir()`, which panics on an invalid cursor. -/
def Workspace.attach (w : Workspace) : Except GoPanic Workspace := do
  let _ ← w.Dir
  return w

/-- The method `Workspace.MoveCursor`. -/
def Workspace.MoveCursor (w0 : Workspace) (amount : Int) : Except GoPanic Workspace :=
  let w := { w0 with Cursor := wrapInt (w0.Cursor + amount) }
  let w := if w.len ≤ w.Cursor then { w with Cursor := 0 }
    else if w.Cursor < 0 then { w with Cursor := w.len - 1 }
    else w
  w.attach

/-- The method `Workspace.SetCursor`. -/
def Workspace.SetCursor (w0 : Workspace) (x : Int) : Except GoPanic Workspace :=
  let w := { w0 with Cursor := x }
  let w := if w.Cursor < 0 then { w with Cursor := 0 }
    else if w.Cursor > w.len - 1 then { w with Cursor := w.len - 1 }
    else w
  w.attach

/-- The method `Workspace.nextIndex`. -/
def Workspace.nextIndex (w : Workspace) : Int :=
  let i := w.Cursor + 1
  if i ≥ w.len then 0 else i

/-- The method `Workspace.prevIndex`. -/
def Workspace.prevIndex (w : Workspace) : Int :=
  let i := w.Cursor - 1
  if i < 0 then w.len - 1 else i

/-- The tuple assignment `ds[i], ds[j] = ds[j], ds[i]`: both right-hand operands
are read first, then `ds[i]` and `ds[j]` are assigned in this order. -/
def swapDirs (ds : List Directory) (i j : Int) : Except GoPanic (List Directory) := do
  let a ← indexDir ds j
  let b ← indexDir ds i
  let ds ← assignDir ds i a
  assignDir ds j b

/-- The method `Workspace.SwapNextDir`. -/
def Workspace.SwapNextDir (w : Workspace) : Except GoPanic Workspace := do
  let next := w.nextIndex
  let ds ← swapDirs w.Dirs w.Cursor next
  let w ← Workspace.MoveCursor { w with Dirs := ds } 1
  w.allocate

/-- The method `Workspace.SwapPrevDir`. -/
def Workspace.SwapPrevDir (w : Workspace) : Except GoPanic Workspace := do
  let prev := w.prevIndex
  let ds ← swapDirs w.Dirs w.Cursor prev
  let w ← Workspace.MoveCursor { w with Dirs := ds } (-1)
  w.allocate

/-- The rectangle of the pane at position `j`, if there is one. -/
def Workspace.rect (w : Workspace) (j : Nat) : Option Goful.Window :=
  (w.Dirs[j]?).map Directory.win

/-- The rectangles of all panes, in pane order. -/
def Workspace.rects (w : Workspace) : List Goful.Window :=
  w.Dirs.map Directory.win

/-- What identifies a pane whatever rectangle it occupies: its pointer and path. -/
def Directory.ident (d : Directory) : Nat × String := (d.ptr, d.Path)

/-- The pane sequence of a workspace: the identities of its panes, in order. -/
def Workspace.panes (w : Workspace) : List (Nat × String) :=
  w.Dirs.map Directory.ident

/-- The rectangle `(x, y, width, height)` with the two axes exchanged. -/
def Window.transpose (r : Window) : Window :=
  ⟨r.y, r.x, r.height, r.width⟩

/-- The number of cells of a rectangle. -/
def Window.area (r : Window) : Int := r.width * r.height

/-- The cell `(cx, cy)` lies in the rectangle. -/
def Window.contains (r : Window) (cx cy : Int) : Prop :=
  r.x ≤ cx ∧ cx < r.x + r.width ∧ r.y ≤ cy ∧ cy < r.y + r.height

instance (r : Window) (cx cy : Int) : Decidable (r.contains cx cy) := by
  unfold Window.contains
  infer_instance

/-- A workspace of `n` fresh panes `0, ..., n-1` with bounds `(x, y, W, H)`,
layout mode `l` and cursor `c`. -/
def sampleWorkspace (n : Nat) (x y W H : Int) (l : layoutType) (c : Int) : Workspace :=
  ⟨⟨x, y, W, H⟩, (List.range n).map (fun i => ⟨i, "/", ⟨0, 0, 0, 0⟩⟩), l, "", c⟩

/-- Modelled from the spec: `NewDirectory(x, y, width, height)`, which builds a
pane with the given rectangle and no location yet; `ptr` is the address of the
new value. -/
def NewDirectory (ptr : Nat) (x y width height : Int) : Directory :=
  ⟨ptr, "", ⟨x, y, width, height⟩⟩

/-- Modelled from the spec: the method `Directory.Chdir(path)`, change-location. -/
def Directory.Chdir (d : Directory) (path : String) : Directory :=
  { d with Path := path }

/-- The call `copy(ds[1:], ds[:len(ds)-1])` on a non-empty slice: every entry
moves one place to the right (entry `i + 1` gets the old entry `i`), the first
entry stays and the old last entry is overwritten. -/
def copyShiftRight : List Directory → List Directory
  | [] => []
  | d :: ds => d :: (d :: ds).dropLast

/-- The method `Workspace.CreateDir`.  `home` is the result of `os.UserHomeDir()`
(`none` when it returns an error) and `ptr` the address of the pane that
`NewDirectory` builds.  The `nil` that `append(w.Dirs, nil)` puts in the last
slot is overwritten, by `copy` or by `w.Dirs[0] = dir`, before anything reads
it; the model fills the slot with `dir`. -/
def Workspace.CreateDir (w : Workspace) (home : Option String) (ptr : Nat) :
    Except GoPanic Workspace :=
  match home with
  | none => .error .homeDirError
  | some path =>
    let dir := (NewDirectory ptr 0 0 0 0).Chdir path
    let ds := copyShiftRight (w.Dirs ++ [dir])
    match assignDir ds 0 dir with
    | .error e => .error e
    | .ok ds1 =>
      match Workspace.SetCursor { w with Dirs := ds1 } 0 with
      | .error e => .error e
      | .ok w1 => w1.allocate

/-- The method `Workspace.CloseDir`.  The slice expressions `w.Dirs[:i]` and
`w.Dirs[i+1:]` panic unless `0 <= i` and `i + 1 <= len(w.Dirs)`. -/
def Workspace.CloseDir (w : Workspace) : Except GoPanic Workspace :=
  if w.len < 2 then .ok w
  else
    let i := w.Cursor
    if 0 ≤ i ∧ i + 1 ≤ w.len then
      let w1 := { w with Dirs := w.Dirs.take i.toNat ++ w.Dirs.drop (i + 1).toNat }
      let w2 := if w1.Cursor ≥ w1.len then { w1 with Cursor := w1.len - 1 } else w1
      match w2.attach with
      | .error e => .error e
      | .ok w3 => w3.allocate
    else .error .sliceOutOfRange

/-- One call `d.draw(focused)` made by `Workspace.Draw`, on the pane `d` found at
position `index` of `w.Dirs`. -/
structure DrawCall where
  index : Int
  pane : Directory
  focused : Bool
  deriving DecidableEq, Repr

/-- The loop `for i, d := range w.Dirs { if i != w.Cursor { d.draw(false) } }`,
from position `i` on: the calls it makes, in order. -/
def drawOthers (cursor : Int) : List Directory → Nat → List DrawCall
  | [], _ => []
  | d :: ds, i =>
    (if (i : Int) ≠ cursor then [⟨(i : Int), d, false⟩] else []) ++ drawOthers cursor ds (i + 1)

/-- The method `Workspace.Draw`: the calls of `draw` it makes, in order. -/
def Workspace.Draw (w : Workspace) : Except GoPanic (List DrawCall) :=
  match w.Layout with
  | .layoutFullscreen =>
    match w.Dir with
    | .error e => .error e
    | .ok d => .ok [⟨w.Cursor, d, true⟩]
  | _ =>
    let calls := drawOthers w.Cursor w.Dirs 0
    match w.Dir with
    | .error e => .error e
    | .ok d => .ok (calls ++ [⟨w.Cursor, d, true⟩])

/-- Repeated cursor movement: `k` calls of `MoveCursor(amount)` in succession. -/
def Workspace.MoveCursorTimes (amount : Int) : Nat → Workspace → Except GoPanic Workspace
  | 0, w => .ok w
  | k + 1, w =>
    match w.MoveCursor amount with
    | .error e => .error e
    | .ok w1 => Workspace.MoveCursorTimes amount k w1

/-- The workspace has at least one pane and the cursor is an index into the panes. -/
def Workspace.CursorValid (w : Workspace) : Prop :=
  1 ≤ w.Dirs.length ∧ 0 ≤ w.Cursor ∧ w.Cursor < (w.Dirs.length : Int)

instance (w : Workspace) : Decidable w.CursorValid := by
  unfold Workspace.CursorValid
  infer_instance

/-- The part of the struct `Goful` that `Resize` reads: `next`, the overlay widget
(`none` for `nil`), here its identity. -/
structure Goful where
  next : Option Nat
  exit : Bool
  deriving DecidableEq, Repr

/-- The method `Goful.Next`. -/
def Goful.Next (g : Goful) : Option Nat := g.next

/-- The calls of `Resize` that `Goful.Resize` makes on its collaborators, each with
the rectangle passed: the workspace stack `g.Filer`, the overlay `g.Next()` when
there is one, and the message, info bar and progress widgets. -/
structure ResizeCalls where
  filer : Window
  overlay : Option (Nat × Window)
  message : Window
  infobar : Window
  progress : Window
  deriving DecidableEq, Repr

/-- The method `Goful.Resize`; `progressIsFinished` is the value of
`progress.IsFinished()`. -/
def Goful.Resize (g : Goful) (progressIsFinished : Bool) (x y width height : Int) :
    ResizeCalls :=
  let offset : Int := if !progressIsFinished then 2 else 0
  { filer := ⟨x, y, width, goSub (goSub height 2) offset⟩,
    overlay :=
      match g.Next with
      | some wid => some (wid, ⟨x, y, width, goSub (goSub height 2) offset⟩)
      | none => none,
    message := ⟨0, goSub height 2, width, 1⟩,
    infobar := ⟨0, goSub height 1, width, 1⟩,
    progress := ⟨0, goSub height 4, width, 1⟩ }

/-- The rectangle lies in the range of a Go `int`: its origin, its sizes and its
far corner `(x + width, y + height)` are 64-bit values. -/
def Window.InRange (r : Window) : Prop :=
  -9223372036854775808 ≤ r.x ∧ -9223372036854775808 ≤ r.y ∧
    r.width ≤ 9223372036854775807 ∧ r.height ≤ 9223372036854775807 ∧
    r.x + r.width ≤ 9223372036854775807 ∧ r.y + r.height ≤ 9223372036854775807

instance (r : Window) : Decidable r.InRange := by
  unfold Window.InRange
  infer_instance

/-- The function `NewWorkspace`. -/
def NewWorkspace (x y width height : Int) (title : String) : Workspace :=
  ⟨⟨x, y, width, height⟩, [], layoutType.layoutTile, title, 0⟩

/-- A workspace in layout mode `TileTop` has at least two panes.  Every workspace
the program builds is so: `NewWorkspace` starts in mode `Tile`, the field
`Layout` becomes `layoutTileTop` only in `LayoutTileTop`, which returns only on
two or more panes, and no method that returns leaves a single pane in that
mode (`TileTopHasTwo_kept`). -/
def Workspace.TileTopHasTwo (w : Workspace) : Prop :=
  w.Layout = layoutType.layoutTileTop → 2 ≤ w.Dirs.length

instance (w : Workspace) : Decidable w.TileTopHasTwo := by
  unfold Workspace.TileTopHasTwo
  infer_instance

/-! ## Lists of panes -/

theorem length_setAt (ds : List Directory) (i : Nat) (e : Directory) :
    (setAt ds i e).length = ds.length := by
  induction ds generalizing i with
  | nil => rfl
  | cons d ds ih =>
    cases i with
    | zero => rfl
    | succ i => simp [setAt, ih]

theorem getElem?_setAt (ds : List Directory) (i j : Nat) (e : Directory) :
    (setAt ds i e)[j]? = if i = j ∧ i < ds.length then some e else ds[j]? := by
  induction ds generalizing i j with
  | nil => simp [setAt]
  | cons d ds ih =>
    cases i with
    | zero =>
      cases j with
      | zero => simp [setAt]
      | succ j => simp [setAt]
    | succ i =>
      cases j with
      | zero => simp [setAt]
      | succ j => simp [setAt, ih]

theorem length_resizePane (ds : List Directory) (i : Nat) (r : Window) :
    (resizePane ds i r).length = ds.length := by
  unfold resizePane
  split
  · exact length_setAt _ _ _
  · rfl

theorem getElem?_resizePane (ds : List Directory) (i j : Nat) (r : Window) :
    (resizePane ds i r)[j]? =
      if i = j then (ds[j]?).map (fun d => { d with win := r }) else ds[j]? := by
  unfold resizePane
  split
  · next d hd =>
    have hlt : i < ds.length := by
      by_contra hge
      rw [List.getElem?_eq_none (Nat.le_of_not_lt hge)] at hd
      cases hd
    rw [getElem?_setAt]
    by_cases hij : i = j
    · subst hij
      simp [hlt, hd, Directory.Resize]
    · simp [hij]
  · next hd =>
    by_cases hij : i = j
    · subst hij
      simp [hd]
    · simp [hij]

theorem length_resizeLoop (f : Int → Window) (lo m : Nat) (ds : List Directory) :
    (resizeLoop f lo m ds).length = ds.length := by
  induction m with
  | zero => rfl
  | succ m ih => simp [resizeLoop, length_resizePane, ih]

theorem getElem?_resizeLoop (f : Int → Window) (lo m : Nat) (ds : List Directory) (j : Nat) :
    (resizeLoop f lo m ds)[j]? =
      if lo ≤ j ∧ j < lo + m then
        (ds[j]?).map (fun d => { d with win := f ((j - lo : Nat) : Int) })
      else ds[j]? := by
  induction m with
  | zero =>
    have h : ¬ (lo ≤ j ∧ j < lo + 0) := by omega
    rw [if_neg h]
    rfl
  | succ m ih =>
    simp only [resizeLoop, getElem?_resizePane, ih]
    by_cases h1 : lo + m = j
    · subst h1
      simp
    · by_cases h2 : lo ≤ j ∧ j < lo + m
      · have h3 : lo ≤ j ∧ j < lo + (m + 1) := ⟨h2.1, by omega⟩
        simp [h1, h2, h3]
      · have h3 : ¬ (lo ≤ j ∧ j < lo + (m + 1)) := by omega
        simp [h1, h2, h3]

/-! ## Running the layout methods -/

theorem bind_ok {α β : Type} (a : α) (f : α → Except GoPanic β) :
    (Except.ok a >>= f) = f a := rfl

theorem bind_error {α β : Type} (e : GoPanic) (f : α → Except GoPanic β) :
    ((Except.error e : Except GoPanic α) >>= f) = Except.error e := rfl

theorem map_ok {α β : Type} (a : α) (f : α → β) :
    (f <$> (Except.ok a : Except GoPanic α)) = Except.ok (f a) := rfl

theorem resizeDir_ok (ds : List Directory) (i : Int) (x y width height : Int)
    (h0 : 0 ≤ i) (h1 : i < (ds.length : Int)) :
    resizeDir ds i x y width height = .ok (resizePane ds i.toNat ⟨x, y, width, height⟩) := by
  simp [resizeDir, h0, h1]

theorem resizeRange_ok (ds : List Directory) (lo hi : Int) (f : Int → Window)
    (h0 : 0 ≤ lo) (h1 : lo ≤ hi) (h2 : hi ≤ (ds.length : Int)) :
    resizeRange ds lo hi f = .ok (resizeLoop f lo.toNat (hi - lo).toNat ds) := by
  simp [resizeRange, h0, h1, h2]

theorem LayoutTile_run (w : Workspace) (n : Nat) (hn : w.Dirs.length = n + 2) :
    w.LayoutTile = .ok { w with
      Layout := layoutType.layoutTile,
      Dirs := resizePane
        (resizeLoop (fun i => ⟨goAdd w.Window.x (Int.tdiv w.Window.width 2),
            goAdd w.Window.y (goMul (Int.tdiv w.Window.height (n + 1)) i),
            goAdd (Int.tdiv w.Window.width 2) (Int.tmod w.Window.width 2),
            Int.tdiv w.Window.height (n + 1)⟩) 1 n
          (resizePane w.Dirs 0 ⟨w.Window.x, w.Window.y, Int.tdiv w.Window.width 2,
            w.Window.height⟩))
        (n + 1)
        ⟨goAdd w.Window.x (Int.tdiv w.Window.width 2),
          goAdd w.Window.y (goMul (Int.tdiv w.Window.height (n + 1)) n),
          goAdd (Int.tdiv w.Window.width 2) (Int.tmod w.Window.width 2),
          goAdd (Int.tdiv w.Window.height (n + 1)) (Int.tmod w.Window.height (n + 1))⟩ } := by
  have c1 : ¬ ((n : Int) < 0) := by omega
  have c2 : ¬ ((n : Int) + 1 = 0) := by omega
  have e1 : (n : Int) + 2 - 1 = n + 1 := by ring
  have e2 : (n : Int) + 1 - 1 = n := by ring
  have t1 : ((n : Int) + 1).toNat = n + 1 := by omega
  unfold Workspace.LayoutTile
  simp only [Workspace.len, hn, goDiv, goMod]
  simp [c1, c2, e1, e2, bind_ok, map_ok]
  rw [resizeDir_ok _ 0 _ _ _ _ (by omega) (by omega), bind_ok]
  rw [resizeRange_ok _ 1 _ _ (by omega) (by omega)
    (by rw [length_resizePane]; omega), bind_ok]
  rw [resizeDir_ok _ _ _ _ _ _ (by omega)
    (by rw [length_resizeLoop, length_resizePane]; omega), map_ok]
  simp [t1]
theorem map_ident_resizePane (ds : List Directory) (i : Nat) (r : Window) :
    (resizePane ds i r).map Directory.ident = ds.map Directory.ident := by
  apply List.ext_getElem?
  intro j
  rw [List.getElem?_map, List.getElem?_map, getElem?_resizePane]
  by_cases h : i = j
  · rw [if_pos h]
    cases ds[j]? <;> rfl
  · rw [if_neg h]

theorem map_ident_resizeLoop (f : Int → Window) (lo m : Nat) (ds : List Directory) :
    (resizeLoop f lo m ds).map Directory.ident = ds.map Directory.ident := by
  induction m with
  | zero => rfl
  | succ m ih => rw [resizeLoop, map_ident_resizePane, ih]

theorem LayoutTile_one (w : Workspace) (hn : w.Dirs.length = 1) :
    w.LayoutTile = .ok { w with
      Layout := layoutType.layoutTile,
      Dirs := resizePane w.Dirs 0
        ⟨w.Window.x, w.Window.y, w.Window.width, w.Window.height⟩ } := by
  unfold Workspace.LayoutTile
  simp only [Workspace.len, hn]
  simp [bind_ok, map_ok]
  rw [resizeDir_ok _ 0 _ _ _ _ (by omega) (by omega), map_ok]
  simp

theorem getElem?_of_lt (ds : List Directory) (j : Nat) (h : j < ds.length) :
    ∃ d, ds[j]? = some d :=
  ⟨ds[j], List.getElem?_eq_getElem h⟩

theorem LayoutOneline_run (w : Workspace) (m : Nat) (hn : w.Dirs.length = m + 1) :
    w.LayoutOneline = .ok { w with
      Layout := layoutType.layoutOneline,
      Dirs := resizePane
        (resizeLoop (fun i => ⟨goAdd w.Window.x (goMul (Int.tdiv w.Window.width (m + 1)) i), w.Window.y,
            Int.tdiv w.Window.width (m + 1), w.Window.height⟩) 0 m w.Dirs)
        m
        ⟨goAdd w.Window.x (goMul (Int.tdiv w.Window.width (m + 1)) m), w.Window.y,
          goAdd (Int.tdiv w.Window.width (m + 1)) (Int.tmod w.Window.width (m + 1)),
          w.Window.height⟩ } := by
  have c2 : ¬ ((m : Int) + 1 = 0) := by omega
  have e2 : (m : Int) + 1 - 1 = m := by ring
  unfold Workspace.LayoutOneline
  simp only [Workspace.len, hn, goDiv, goMod]
  simp [c2, e2, bind_ok, map_ok]
  rw [resizeRange_ok _ 0 _ _ (by omega) (by omega) (by omega), bind_ok]
  rw [resizeDir_ok _ _ _ _ _ _ (by omega) (by rw [length_resizeLoop]; omega), map_ok]
  simp

theorem LayoutOnecolumn_run (w : Workspace) (m : Nat) (hn : w.Dirs.length = m + 1) :
    w.LayoutOnecolumn = .ok { w with
      Layout := layoutType.layoutOneColumn,
      Dirs := resizePane
        (resizeLoop (fun i => ⟨w.Window.x, goAdd w.Window.y (goMul (Int.tdiv w.Window.height (m + 1)) i),
            w.Window.width, Int.tdiv w.Window.height (m + 1)⟩) 0 m w.Dirs)
        m
        ⟨w.Window.x, goAdd w.Window.y (goMul (Int.tdiv w.Window.height (m + 1)) m), w.Window.width,
          goAdd (Int.tdiv w.Window.height (m + 1)) (Int.tmod w.Window.height (m + 1))⟩ } := by
  have c2 : ¬ ((m : Int) + 1 = 0) := by omega
  have e2 : (m : Int) + 1 - 1 = m := by ring
  unfold Workspace.LayoutOnecolumn
  simp only [Workspace.len, hn, goDiv, goMod]
  simp [c2, e2, bind_ok, map_ok]
  rw [resizeRange_ok _ 0 _ _ (by omega) (by omega) (by omega), bind_ok]
  rw [resizeDir_ok _ _ _ _ _ _ (by omega) (by rw [length_resizeLoop]; omega), map_ok]
  simp

/-- The rectangles `LayoutOneline` assigns, in Go's own division and remainder. -/
theorem LayoutOneline_rect (w : Workspace) (m : Nat) (hn : w.Dirs.length = m + 1) :
    ∃ w1, w.LayoutOneline = .ok w1 ∧ w1.Layout = layoutType.layoutOneline ∧
      w1.Window = w.Window ∧ w1.panes = w.panes ∧
      ∀ i : Nat, w1.rect i =
        if i < m then
          some ⟨goAdd w.Window.x (goMul (Int.tdiv w.Window.width (m + 1)) i), w.Window.y,
            Int.tdiv w.Window.width (m + 1), w.Window.height⟩
        else if i = m then
          some ⟨goAdd w.Window.x (goMul (Int.tdiv w.Window.width (m + 1)) m), w.Window.y,
            goAdd (Int.tdiv w.Window.width (m + 1)) (Int.tmod w.Window.width (m + 1)),
            w.Window.height⟩
        else none := by
  refine ⟨_, LayoutOneline_run w m hn, rfl, rfl, ?_, ?_⟩
  · simp [Workspace.panes, map_ident_resizePane, map_ident_resizeLoop]
  · intro i
    by_cases h1 : i < m
    · obtain ⟨d, hd⟩ := getElem?_of_lt w.Dirs i (by omega)
      have c1 : ¬ (m = i) := by omega
      simp [Workspace.rect, getElem?_resizePane, getElem?_resizeLoop, hd, h1, c1]
    · by_cases h2 : i = m
      · subst h2
        obtain ⟨d, hd⟩ := getElem?_of_lt w.Dirs i (by omega)
        simp [Workspace.rect, getElem?_resizePane, getElem?_resizeLoop, hd]
      · have hnone : w.Dirs[i]? = none := List.getElem?_eq_none (by omega)
        have c1 : ¬ (m = i) := fun h => h2 h.symm
        simp [Workspace.rect, getElem?_resizePane, getElem?_resizeLoop, hnone, h1, h2, c1]

/-- The rectangles `LayoutOnecolumn` assigns, in Go's own division and remainder. -/
theorem LayoutOnecolumn_rect (w : Workspace) (m : Nat) (hn : w.Dirs.length = m + 1) :
    ∃ w1, w.LayoutOnecolumn = .ok w1 ∧ w1.Layout = layoutType.layoutOneColumn ∧
      w1.Window = w.Window ∧ w1.panes = w.panes ∧
      ∀ i : Nat, w1.rect i =
        if i < m then
          some ⟨w.Window.x, goAdd w.Window.y (goMul (Int.tdiv w.Window.height (m + 1)) i),
            w.Window.width, Int.tdiv w.Window.height (m + 1)⟩
        else if i = m then
          some ⟨w.Window.x, goAdd w.Window.y (goMul (Int.tdiv w.Window.height (m + 1)) m), w.Window.width,
            goAdd (Int.tdiv w.Window.height (m + 1)) (Int.tmod w.Window.height (m + 1))⟩
        else none := by
  refine ⟨_, LayoutOnecolumn_run w m hn, rfl, rfl, ?_, ?_⟩
  · simp [Workspace.panes, map_ident_resizePane, map_ident_resizeLoop]
  · intro i
    by_cases h1 : i < m
    · obtain ⟨d, hd⟩ := getElem?_of_lt w.Dirs i (by omega)
      have c1 : ¬ (m = i) := by omega
      simp [Workspace.rect, getElem?_resizePane, getElem?_resizeLoop, hd, h1, c1]
    · by_cases h2 : i = m
      · subst h2
        obtain ⟨d, hd⟩ := getElem?_of_lt w.Dirs i (by omega)
        simp [Workspace.rect, getElem?_resizePane, getElem?_resizeLoop, hd]
      · have hnone : w.Dirs[i]? = none := List.getElem?_eq_none (by omega)
        have c1 : ¬ (m = i) := fun h => h2 h.symm
        simp [Workspace.rect, getElem?_resizePane, getElem?_resizeLoop, hnone, h1, h2, c1]

theorem LayoutTileTop_run (w : Workspace) (m : Nat) (hn : w.Dirs.length = m + 2) :
    w.LayoutTileTop = .ok { w with
      Layout := layoutType.layoutTileTop,
      Dirs := resizePane
        (resizeLoop (fun i => ⟨goAdd w.Window.x (goMul (Int.tdiv w.Window.width (m + 1)) i), w.Window.y,
            Int.tdiv w.Window.width (m + 1), Int.tdiv w.Window.height 2⟩) 1 m
          (resizePane w.Dirs 0 ⟨w.Window.x, goAdd w.Window.y (Int.tdiv w.Window.height 2),
            w.Window.width, goAdd (Int.tdiv w.Window.height 2) (Int.tmod w.Window.height 2)⟩))
        (m + 1)
        ⟨goAdd w.Window.x (goMul (Int.tdiv w.Window.width (m + 1)) m), w.Window.y,
          goAdd (Int.tdiv w.Window.width (m + 1)) (Int.tmod w.Window.width 2),
          Int.tdiv w.Window.height 2⟩ } := by
  have c1 : ¬ ((m : Int) < 0) := by omega
  have c2 : ¬ ((m : Int) + 1 = 0) := by omega
  have e1 : (m : Int) + 2 - 1 = m + 1 := by ring
  have e2 : (m : Int) + 1 - 1 = m := by ring
  have t1 : ((m : Int) + 1).toNat = m + 1 := by omega
  unfold Workspace.LayoutTileTop
  simp only [Workspace.len, hn, goDiv, goMod]
  simp [c1, c2, e1, e2, bind_ok, map_ok]
  rw [resizeDir_ok _ 0 _ _ _ _ (by omega) (by omega), bind_ok]
  rw [resizeRange_ok _ 1 _ _ (by omega) (by omega)
    (by rw [length_resizePane]; omega), bind_ok]
  rw [resizeDir_ok _ _ _ _ _ _ (by omega)
    (by rw [length_resizeLoop, length_resizePane]; omega), map_ok]
  simp [t1]

theorem LayoutTileBottom_run (w : Workspace) (m : Nat) (hn : w.Dirs.length = m + 2) :
    w.LayoutTileBottom = .ok { w with
      Layout := layoutType.layoutTileBottom,
      Dirs := resizePane
        (resizeLoop (fun i => ⟨goAdd w.Window.x (goMul (Int.tdiv w.Window.width (m + 1)) i),
            goAdd w.Window.y (Int.tdiv w.Window.height 2), Int.tdiv w.Window.width (m + 1),
            goAdd (Int.tdiv w.Window.height 2) (Int.tmod w.Window.height 2)⟩) 1 m
          (resizePane w.Dirs 0 ⟨w.Window.x, w.Window.y, w.Window.width,
            Int.tdiv w.Window.height 2⟩))
        (m + 1)
        ⟨goAdd w.Window.x (goMul (Int.tdiv w.Window.width (m + 1)) m),
          goAdd w.Window.y (Int.tdiv w.Window.height 2),
          goAdd (Int.tdiv w.Window.width (m + 1)) (Int.tmod w.Window.width 2),
          goAdd (Int.tdiv w.Window.height 2) (Int.tmod w.Window.height 2)⟩ } := by
  have c1 : ¬ ((m : Int) < 0) := by omega
  have c2 : ¬ ((m : Int) + 1 = 0) := by omega
  have e1 : (m : Int) + 2 - 1 = m + 1 := by ring
  have e2 : (m : Int) + 1 - 1 = m := by ring
  have t1 : ((m : Int) + 1).toNat = m + 1 := by omega
  unfold Workspace.LayoutTileBottom
  simp only [Workspace.len, hn, goDiv, goMod]
  simp [c1, c2, e1, e2, bind_ok, map_ok]
  rw [resizeDir_ok _ 0 _ _ _ _ (by omega) (by omega), bind_ok]
  rw [resizeRange_ok _ 1 _ _ (by omega) (by omega)
    (by rw [length_resizePane]; omega), bind_ok]
  rw [resizeDir_ok _ _ _ _ _ _ (by omega)
    (by rw [length_resizeLoop, length_resizePane]; omega), map_ok]
  simp [t1]

theorem LayoutTileBottom_one (w : Workspace) (hn : w.Dirs.length = 1) :
    w.LayoutTileBottom = .ok { w with
      Layout := layoutType.layoutTileBottom,
      Dirs := resizePane w.Dirs 0
        ⟨w.Window.x, w.Window.y, w.Window.width, w.Window.height⟩ } := by
  unfold Workspace.LayoutTileBottom
  simp only [Workspace.len, hn]
  simp [bind_ok, map_ok]
  rw [resizeDir_ok _ 0 _ _ _ _ (by omega) (by omega), map_ok]
  simp

theorem LayoutTileTop_one (w : Workspace) (hn : w.Dirs.length = 1) :
    w.LayoutTileTop = .error GoPanic.divideByZero := by
  unfold Workspace.LayoutTileTop
  simp only [Workspace.len, hn, goDiv, goMod]
  simp [bind_ok, map_ok]
  rw [resizeDir_ok _ 0 _ _ _ _ (by omega) (by omega), bind_ok]
  rw [resizeDir_ok _ 0 _ _ _ _ (by omega) (by rw [length_resizePane]; omega), bind_ok]
  rfl

theorem LayoutFullscreen_run (w : Workspace) :
    w.LayoutFullscreen = .ok { w with
      Layout := layoutType.layoutFullscreen,
      Dirs := resizeLoop
        (fun _ => ⟨w.Window.x, w.Window.y, w.Window.width, w.Window.height⟩) 0
        w.Dirs.length w.Dirs } := by
  unfold Workspace.LayoutFullscreen
  simp only [Workspace.len]
  rw [resizeRange_ok _ 0 _ _ (by omega) (by omega) (by omega)]
  simp [bind_ok, map_ok]

/-! ## Cursor movement -/

theorem wrapInt_of_fits (z : Int) (hlo : -9223372036854775808 ≤ z)
    (hhi : z ≤ 9223372036854775807) : wrapInt z = z := by
  unfold wrapInt
  omega

theorem neg_one_emod (n : Int) (hn : 0 < n) : (-1 : Int) % n = n - 1 := by
  have h : (-1 : Int) % n = (-1 + n) % n := (Int.add_emod_self).symm
  rw [h]
  have h2 : (-1 + n) % n = -1 + n := Int.emod_eq_of_lt (by omega) (by omega)
  rw [h2]
  omega

theorem attach_ok (w : Workspace) (h0 : 0 ≤ w.Cursor) (h1 : w.Cursor < (w.Dirs.length : Int)) :
    w.attach = .ok w := by
  obtain ⟨d, hd⟩ := getElem?_of_lt w.Dirs w.Cursor.toNat (by omega)
  simp [Workspace.attach, Workspace.Dir, indexDir, h0, hd, bind_ok]

/-- What `MoveCursor` does when the sum `w.Cursor + amount` fits a Go `int`. -/
theorem MoveCursor_run (w : Workspace) (amount : Int) (hn : 1 ≤ w.Dirs.length)
    (hlo : -9223372036854775808 ≤ w.Cursor + amount)
    (hhi : w.Cursor + amount ≤ 9223372036854775807) :
    w.MoveCursor amount = .ok { w with
      Cursor := if (w.Dirs.length : Int) ≤ w.Cursor + amount then 0
        else if w.Cursor + amount < 0 then (w.Dirs.length : Int) - 1
        else w.Cursor + amount } := by
  unfold Workspace.MoveCursor
  simp only [Workspace.len, wrapInt_of_fits _ hlo hhi]
  by_cases c1 : (w.Dirs.length : Int) ≤ w.Cursor + amount
  · simp only [c1, if_true]
    exact attach_ok _ (by simp) (by simp; omega)
  · by_cases c2 : w.Cursor + amount < 0
    · simp only [c1, c2, if_true, if_false]
      exact attach_ok _ (by simp; omega) (by simp)
    · simp only [c1, c2, if_false]
      exact attach_ok _ (by simp; omega) (by simp; omega)

/-! ## Re-layout and the swaps -/

/-- The method `allocate` returns on every workspace with a pane, except `TileTop` on a single
pane; it leaves the pane sequence, the cursor, the layout mode and the bounds
as they are. -/
theorem allocate_ok (w : Workspace) (hn : 1 ≤ w.Dirs.length)
    (hsafe : ¬ (w.Layout = layoutType.layoutTileTop ∧ w.Dirs.length = 1)) :
    ∃ w1, w.allocate = .ok w1 ∧ w1.panes = w.panes ∧ w1.Cursor = w.Cursor ∧
      w1.Layout = w.Layout ∧ w1.Window = w.Window ∧ w1.Title = w.Title := by
  unfold Workspace.allocate
  cases hL : w.Layout with
  | layoutTile =>
    by_cases h1 : w.Dirs.length = 1
    · refine ⟨_, LayoutTile_one w h1, ?_, rfl, rfl, rfl, rfl⟩
      simp [Workspace.panes, map_ident_resizePane]
    · refine ⟨_, LayoutTile_run w (w.Dirs.length - 2) (by omega), ?_, rfl, rfl, rfl, rfl⟩
      simp [Workspace.panes, map_ident_resizePane, map_ident_resizeLoop]
  | layoutTileTop =>
    have h1 : ¬ w.Dirs.length = 1 := fun h => hsafe ⟨hL, h⟩
    refine ⟨_, LayoutTileTop_run w (w.Dirs.length - 2) (by omega), ?_, rfl, rfl, rfl, rfl⟩
    simp [Workspace.panes, map_ident_resizePane, map_ident_resizeLoop]
  | layoutTileBottom =>
    by_cases h1 : w.Dirs.length = 1
    · refine ⟨_, LayoutTileBottom_one w h1, ?_, rfl, rfl, rfl, rfl⟩
      simp [Workspace.panes, map_ident_resizePane]
    · refine ⟨_, LayoutTileBottom_run w (w.Dirs.length - 2) (by omega), ?_, rfl, rfl, rfl, rfl⟩
      simp [Workspace.panes, map_ident_resizePane, map_ident_resizeLoop]
  | layoutOneline =>
    refine ⟨_, LayoutOneline_run w (w.Dirs.length - 1) (by omega), ?_, rfl, rfl, rfl, rfl⟩
    simp [Workspace.panes, map_ident_resizePane, map_ident_resizeLoop]
  | layoutOneColumn =>
    refine ⟨_, LayoutOnecolumn_run w (w.Dirs.length - 1) (by omega), ?_, rfl, rfl, rfl, rfl⟩
    simp [Workspace.panes, map_ident_resizePane, map_ident_resizeLoop]
  | layoutFullscreen =>
    refine ⟨_, LayoutFullscreen_run w, ?_, rfl, rfl, rfl, rfl⟩
    simp [Workspace.panes, map_ident_resizeLoop]

theorem length_of_panes (w1 w : Workspace) (h : w1.panes = w.panes) :
    w1.Dirs.length = w.Dirs.length := by
  have := congrArg List.length h
  simpa [Workspace.panes] using this

/-- The tuple assignment on two valid positions exchanges the two entries. -/
theorem swapDirs_ok (ds : List Directory) (i j : Nat) (hi : i < ds.length)
    (hj : j < ds.length) :
    ∃ ds1, swapDirs ds (i : Int) (j : Int) = .ok ds1 ∧ ds1.length = ds.length ∧
      ∀ k : Nat, ds1[k]? = if k = j then ds[i]? else if k = i then ds[j]? else ds[k]? := by
  obtain ⟨a, ha⟩ := getElem?_of_lt ds j hj
  obtain ⟨b, hb⟩ := getElem?_of_lt ds i hi
  have hi2 : (i : Int) < (ds.length : Int) := by omega
  have hj2 : (j : Int) < (ds.length : Int) := by omega
  refine ⟨setAt (setAt ds i a) j b, ?_, ?_, ?_⟩
  · simp [swapDirs, indexDir, assignDir, ha, hb, bind_ok, hi2, hj2, length_setAt]
    exact hj
  · simp [length_setAt]
  · intro k
    rw [getElem?_setAt, getElem?_setAt, length_setAt]
    by_cases c1 : k = j
    · subst c1
      simp [hj, hb]
    · by_cases c2 : k = i
      · subst c2
        have c3 : ¬ (j = k) := fun h => c1 h.symm
        simp [c1, c3, hi, ha]
      · have c3 : ¬ (j = k) := fun h => c1 h.symm
        have c4 : ¬ (i = k) := fun h => c2 h.symm
        simp [c1, c2, c3, c4]

theorem getElem?_panes (w : Workspace) (k : Nat) :
    w.panes[k]? = (w.Dirs[k]?).map Directory.ident := by
  simp [Workspace.panes]

/-- The method `SwapNextDir` on a valid cursor `c`: the panes at `c` and at its cyclic
successor change places and the cursor moves to the successor. -/
theorem SwapNextDir_ok (w : Workspace) (c : Nat) (hc : w.Cursor = (c : Int))
    (hcn : c < w.Dirs.length) (hsz : (w.Dirs.length : Int) ≤ 4611686018427387904)
    (hsafe : ¬ (w.Layout = layoutType.layoutTileTop ∧ w.Dirs.length = 1)) :
    ∃ w1, w.SwapNextDir = .ok w1 ∧
      w1.Cursor = ((if c + 1 < w.Dirs.length then c + 1 else 0 : Nat) : Int) ∧
      w1.Layout = w.Layout ∧ w1.Window = w.Window ∧ w1.Dirs.length = w.Dirs.length ∧
      ∀ k : Nat, w1.panes[k]? =
        if k = (if c + 1 < w.Dirs.length then c + 1 else 0) then w.panes[c]?
        else if k = c then w.panes[(if c + 1 < w.Dirs.length then c + 1 else 0)]?
        else w.panes[k]? := by
  have hnx : w.nextIndex = ((if c + 1 < w.Dirs.length then c + 1 else 0 : Nat) : Int) := by
    unfold Workspace.nextIndex Workspace.len
    simp only [hc]
    split_ifs <;> omega
  have hlt : (if c + 1 < w.Dirs.length then c + 1 else 0) < w.Dirs.length := by
    split_ifs <;> omega
  obtain ⟨ds1, hs, hl, hk⟩ := swapDirs_ok w.Dirs c _ hcn hlt
  have hmove := MoveCursor_run { w with Dirs := ds1 } 1 (by simp only; omega)
    (by simp only; omega) (by simp only; omega)
  simp only [hl, hc] at hmove
  have hcur : (if (w.Dirs.length : Int) ≤ (c : Int) + 1 then (0 : Int)
      else if (c : Int) + 1 < 0 then (w.Dirs.length : Int) - 1 else (c : Int) + 1)
      = ((if c + 1 < w.Dirs.length then c + 1 else 0 : Nat) : Int) := by
    split_ifs <;> omega
  rw [hcur] at hmove
  obtain ⟨w1, ha, hp, hcu, hla, hwi, _⟩ := allocate_ok
    { w with Dirs := ds1,
             Cursor := ((if c + 1 < w.Dirs.length then c + 1 else 0 : Nat) : Int) }
    (by simp only; omega) (by simp only; rw [hl]; exact hsafe)
  refine ⟨w1, ?_, hcu, hla, hwi, ?_, ?_⟩
  · unfold Workspace.SwapNextDir
    rw [hnx, hc]
    dsimp only
    rw [hs, bind_ok, hmove, bind_ok]
    exact ha
  · rw [length_of_panes _ _ hp]
    exact hl
  · intro k
    rw [hp]
    simp only [getElem?_panes, hk]
    split_ifs <;> rfl

/-- The method `SwapPrevDir` on a valid cursor `c`: the panes at `c` and at its cyclic
predecessor change places and the cursor moves to the predecessor. -/
theorem SwapPrevDir_ok (w : Workspace) (c : Nat) (hc : w.Cursor = (c : Int))
    (hcn : c < w.Dirs.length) (hsz : (w.Dirs.length : Int) ≤ 4611686018427387904)
    (hsafe : ¬ (w.Layout = layoutType.layoutTileTop ∧ w.Dirs.length = 1)) :
    ∃ w1, w.SwapPrevDir = .ok w1 ∧
      w1.Cursor = ((if c = 0 then w.Dirs.length - 1 else c - 1 : Nat) : Int) ∧
      w1.Layout = w.Layout ∧ w1.Window = w.Window ∧ w1.Dirs.length = w.Dirs.length ∧
      ∀ k : Nat, w1.panes[k]? =
        if k = (if c = 0 then w.Dirs.length - 1 else c - 1) then w.panes[c]?
        else if k = c then w.panes[(if c = 0 then w.Dirs.length - 1 else c - 1)]?
        else w.panes[k]? := by
  have hpv : w.prevIndex = ((if c = 0 then w.Dirs.length - 1 else c - 1 : Nat) : Int) := by
    unfold Workspace.prevIndex Workspace.len
    simp only [hc]
    split_ifs <;> omega
  have hlt : (if c = 0 then w.Dirs.length - 1 else c - 1) < w.Dirs.length := by
    split_ifs <;> omega
  obtain ⟨ds1, hs, hl, hk⟩ := swapDirs_ok w.Dirs c _ hcn hlt
  have hmove := MoveCursor_run { w with Dirs := ds1 } (-1) (by simp only; omega)
    (by simp only; omega) (by simp only; omega)
  simp only [hl, hc] at hmove
  have hcur : (if (w.Dirs.length : Int) ≤ (c : Int) + -1 then (0 : Int)
      else if (c : Int) + -1 < 0 then (w.Dirs.length : Int) - 1 else (c : Int) + -1)
      = ((if c = 0 then w.Dirs.length - 1 else c - 1 : Nat) : Int) := by
    split_ifs <;> omega
  rw [hcur] at hmove
  obtain ⟨w1, ha, hp, hcu, hla, hwi, _⟩ := allocate_ok
    { w with Dirs := ds1,
             Cursor := ((if c = 0 then w.Dirs.length - 1 else c - 1 : Nat) : Int) }
    (by simp only; omega) (by simp only; rw [hl]; exact hsafe)
  refine ⟨w1, ?_, hcu, hla, hwi, ?_, ?_⟩
  · unfold Workspace.SwapPrevDir
    rw [hpv, hc]
    dsimp only
    rw [hs, bind_ok, hmove, bind_ok]
    exact ha
  · rw [length_of_panes _ _ hp]
    exact hl
  · intro k
    rw [hp]
    simp only [getElem?_panes, hk]
    split_ifs <;> rfl

/-! ## Closing, creating, cursor setting -/

theorem Workspace.eta_cursor (w : Workspace) : { w with Cursor := w.Cursor } = w := by
  cases w
  rfl

/-- What `SetCursor` does on a workspace with a pane. -/
theorem SetCursor_run (w : Workspace) (x : Int) (hn : 1 ≤ w.Dirs.length) :
    w.SetCursor x = .ok { w with
      Cursor := if x < 0 then 0
        else if x > (w.Dirs.length : Int) - 1 then (w.Dirs.length : Int) - 1
        else x } := by
  unfold Workspace.SetCursor
  simp only [Workspace.len]
  by_cases c1 : x < 0
  · simp only [c1, if_true]
    exact attach_ok _ (by simp) (by simp; omega)
  · by_cases c2 : x > (w.Dirs.length : Int) - 1
    · simp only [c1, c2, if_true, if_false]
      exact attach_ok _ (by simp; omega) (by simp)
    · simp only [c1, c2, if_false]
      exact attach_ok _ (by simp; omega) (by simp; omega)

/-- Repeating a cursor movement that advances the cursor by `s` modulo the pane
count advances it by `s * k` modulo the pane count. -/
theorem MoveCursorTimes_mod (amount : Int) (s n : Nat)
    (hstep : ∀ (w : Workspace) (c : Nat), w.Dirs.length = n → w.Cursor = (c : Int) → c < n →
      w.MoveCursor amount = .ok { w with Cursor := (((c + s) % n : Nat) : Int) }) :
    ∀ (k : Nat) (w : Workspace) (c : Nat), w.Dirs.length = n → w.Cursor = (c : Int) → c < n →
      w.MoveCursorTimes amount k = .ok { w with Cursor := (((c + s * k) % n : Nat) : Int) } := by
  intro k
  induction k with
  | zero =>
    intro w c _ hc hcn
    have e : (c + s * 0) % n = c := by
      rw [Nat.mul_zero, Nat.add_zero]
      exact Nat.mod_eq_of_lt hcn
    rw [e, ← hc, Workspace.eta_cursor]
    rfl
  | succ k ih =>
    intro w c hlen hc hcn
    have hpos : 0 < n := by omega
    unfold Workspace.MoveCursorTimes
    rw [hstep w c hlen hc hcn]
    simp only
    rw [ih { w with Cursor := (((c + s) % n : Nat) : Int) } ((c + s) % n) hlen rfl
      (Nat.mod_lt _ hpos)]
    have e : ((c + s) % n + s * k) % n = (c + s * (k + 1)) % n := by
      rw [Nat.mod_add_mod]
      congr 1
      ring
    rw [e]

theorem MoveCursor_one_step (n : Nat) (hsz : (n : Int) ≤ 9223372036854775807)
    (w : Workspace) (c : Nat) (hlen : w.Dirs.length = n) (hc : w.Cursor = (c : Int))
    (hcn : c < n) :
    w.MoveCursor 1 = .ok { w with Cursor := (((c + 1) % n : Nat) : Int) } := by
  have hm : (c + 1) % n = if c + 1 < n then c + 1 else 0 := by
    by_cases a : c + 1 < n
    · rw [if_pos a, Nat.mod_eq_of_lt a]
    · have e : c + 1 = n := by omega
      rw [if_neg a, e, Nat.mod_self]
  rw [MoveCursor_run w 1 (by omega) (by omega) (by omega), hm, hc, hlen]
  congr 2
  split_ifs <;> omega

theorem MoveCursor_back_step (n : Nat) (hsz : (n : Int) ≤ 9223372036854775807)
    (w : Workspace) (c : Nat) (hlen : w.Dirs.length = n) (hc : w.Cursor = (c : Int))
    (hcn : c < n) :
    w.MoveCursor (-1) = .ok { w with Cursor := (((c + (n - 1)) % n : Nat) : Int) } := by
  have hm : (c + (n - 1)) % n = if c = 0 then n - 1 else c - 1 := by
    by_cases a : c = 0
    · rw [if_pos a, a, Nat.zero_add, Nat.mod_eq_of_lt (by omega)]
    · have e : c + (n - 1) = (c - 1) + n := by omega
      rw [if_neg a, e, Nat.add_mod_right, Nat.mod_eq_of_lt (by omega)]
  rw [MoveCursor_run w (-1) (by omega) (by omega) (by omega), hm, hc, hlen]
  congr 2
  split_ifs <;> omega

/-! ## Drawing -/

theorem drawOthers_index (c : Nat) (ds : List Directory) (i0 : Nat) :
    (drawOthers (c : Int) ds i0).map DrawCall.index =
      ((List.range' i0 ds.length).filter (fun i => decide (i ≠ c))).map Int.ofNat := by
  induction ds generalizing i0 with
  | nil => rfl
  | cons d ds ih =>
    have e : List.range' i0 (ds.length + 1) = i0 :: List.range' (i0 + 1) ds.length := rfl
    rw [drawOthers, List.length_cons, e, List.map_append, ih (i0 + 1)]
    by_cases a : i0 = c
    · subst a
      simp
    · have b : (i0 : Int) ≠ (c : Int) := by omega
      simp [a, b]

theorem drawOthers_calls (cur : Int) (ds : List Directory) (i0 : Nat) :
    ∀ call ∈ drawOthers cur ds i0, call.focused = false ∧ call.index ≠ cur ∧
      ∃ j : Nat, call.index = ((i0 + j : Nat) : Int) ∧ ds[j]? = some call.pane := by
  induction ds generalizing i0 with
  | nil =>
    intro call h
    simp [drawOthers] at h
  | cons d ds ih =>
    intro call h
    rw [drawOthers, List.mem_append] at h
    rcases h with h | h
    · by_cases a : (i0 : Int) ≠ cur
      · rw [if_pos a, List.mem_singleton] at h
        subst h
        exact ⟨rfl, a, 0, rfl, by simp⟩
      · rw [if_neg a] at h
        cases h
    · obtain ⟨hf, hne, j, hj, hp⟩ := ih (i0 + 1) call h
      refine ⟨hf, hne, j + 1, ?_, ?_⟩
      · rw [hj]
        congr 1
        omega
      · simpa using hp

/-! ## The pane-management methods as an update followed by a re-layout -/

/-- On a single pane under `TileTop` the re-layout panics. -/
theorem allocate_one_TileTop (w : Workspace) (hL : w.Layout = layoutType.layoutTileTop)
    (hlen : w.Dirs.length = 1) : w.allocate = .error GoPanic.divideByZero := by
  unfold Workspace.allocate
  simp only [hL]
  exact LayoutTileTop_one w hlen

/-- Whenever the re-layout returns, the pane sequence, the cursor, the layout mode
and the bounds are the ones before it. -/
theorem allocate_of_ok (w w1 : Workspace) (hn : 1 ≤ w.Dirs.length) (h : w.allocate = .ok w1) :
    w1.panes = w.panes ∧ w1.Cursor = w.Cursor ∧ w1.Layout = w.Layout ∧
      w1.Window = w.Window := by
  by_cases hbad : w.Layout = layoutType.layoutTileTop ∧ w.Dirs.length = 1
  · rw [allocate_one_TileTop w hbad.1 hbad.2] at h
    cases h
  · obtain ⟨w2, h2, hp, hc, hl, hw, _⟩ := allocate_ok w hn hbad
    rw [h2] at h
    cases h
    exact ⟨hp, hc, hl, hw⟩

/-- For every amount `MoveCursor` returns on a workspace with a pane, changing the
cursor only, and the new cursor is an index into the panes. -/
theorem MoveCursor_valid (w : Workspace) (amount : Int) (hn : 1 ≤ w.Dirs.length) :
    ∃ c1 : Int, w.MoveCursor amount = .ok { w with Cursor := c1 } ∧
      0 ≤ c1 ∧ c1 < (w.Dirs.length : Int) := by
  unfold Workspace.MoveCursor
  simp only [Workspace.len]
  by_cases c1 : (w.Dirs.length : Int) ≤ wrapInt (w.Cursor + amount)
  · simp only [c1, if_true]
    exact ⟨0, attach_ok _ (by simp) (by simp; omega), by omega, by omega⟩
  · by_cases c2 : wrapInt (w.Cursor + amount) < 0
    · simp only [c1, c2, if_true, if_false]
      exact ⟨_, attach_ok _ (by simp; omega) (by simp), by omega, by omega⟩
    · simp only [c1, c2, if_false]
      exact ⟨_, attach_ok _ (by simp; omega) (by simp; omega), by omega, by omega⟩

theorem nextIndex_valid (w : Workspace) (h0 : 0 ≤ w.Cursor)
    (h1 : w.Cursor < (w.Dirs.length : Int)) :
    0 ≤ w.nextIndex ∧ w.nextIndex < (w.Dirs.length : Int) := by
  unfold Workspace.nextIndex Workspace.len
  simp only
  split_ifs <;> omega

theorem prevIndex_valid (w : Workspace) (h0 : 0 ≤ w.Cursor)
    (h1 : w.Cursor < (w.Dirs.length : Int)) :
    0 ≤ w.prevIndex ∧ w.prevIndex < (w.Dirs.length : Int) := by
  unfold Workspace.prevIndex Workspace.len
  simp only
  split_ifs <;> omega

/-- The tuple assignment on two valid positions returns a list of the same length. -/
theorem swapDirs_valid (ds : List Directory) (i j : Int) (hi0 : 0 ≤ i)
    (hi : i < (ds.length : Int)) (hj0 : 0 ≤ j) (hj : j < (ds.length : Int)) :
    ∃ ds1, swapDirs ds i j = .ok ds1 ∧ ds1.length = ds.length := by
  obtain ⟨ds1, h, hl, _⟩ := swapDirs_ok ds i.toNat j.toNat (by omega) (by omega)
  have ei : ((i.toNat : Nat) : Int) = i := by omega
  have ej : ((j.toNat : Nat) : Int) = j := by omega
  rw [ei, ej] at h
  exact ⟨ds1, h, hl⟩

/-- The method `SwapNextDir` on a valid cursor is an update of the panes and the
cursor, which keeps the pane count and a valid cursor, followed by the re-layout. -/
theorem SwapNextDir_struct (w : Workspace) (h0 : 0 ≤ w.Cursor)
    (h1 : w.Cursor < (w.Dirs.length : Int)) :
    ∃ (ds1 : List Directory) (c1 : Int), ds1.length = w.Dirs.length ∧ 0 ≤ c1 ∧
      c1 < (w.Dirs.length : Int) ∧
      w.SwapNextDir = Workspace.allocate { w with Dirs := ds1, Cursor := c1 } := by
  obtain ⟨hn0, hn1⟩ := nextIndex_valid w h0 h1
  obtain ⟨ds1, hs, hl⟩ := swapDirs_valid w.Dirs w.Cursor w.nextIndex h0 h1 hn0 hn1
  obtain ⟨c1, hm, hc0, hc1⟩ := MoveCursor_valid { w with Dirs := ds1 } 1 (by simp only; omega)
  refine ⟨ds1, c1, hl, hc0, by simp only [hl] at hc1; exact hc1, ?_⟩
  unfold Workspace.SwapNextDir
  dsimp only
  rw [hs, bind_ok, hm, bind_ok]

/-- The method `SwapPrevDir` on a valid cursor is an update of the panes and the
cursor, which keeps the pane count and a valid cursor, followed by the re-layout. -/
theorem SwapPrevDir_struct (w : Workspace) (h0 : 0 ≤ w.Cursor)
    (h1 : w.Cursor < (w.Dirs.length : Int)) :
    ∃ (ds1 : List Directory) (c1 : Int), ds1.length = w.Dirs.length ∧ 0 ≤ c1 ∧
      c1 < (w.Dirs.length : Int) ∧
      w.SwapPrevDir = Workspace.allocate { w with Dirs := ds1, Cursor := c1 } := by
  obtain ⟨hn0, hn1⟩ := prevIndex_valid w h0 h1
  obtain ⟨ds1, hs, hl⟩ := swapDirs_valid w.Dirs w.Cursor w.prevIndex h0 h1 hn0 hn1
  obtain ⟨c1, hm, hc0, hc1⟩ := MoveCursor_valid { w with Dirs := ds1 } (-1)
    (by simp only; omega)
  refine ⟨ds1, c1, hl, hc0, by simp only [hl] at hc1; exact hc1, ?_⟩
  unfold Workspace.SwapPrevDir
  dsimp only
  rw [hs, bind_ok, hm, bind_ok]

theorem length_eraseIdx_of_lt (ds : List Directory) (c : Nat) (hcn : c < ds.length) :
    (ds.eraseIdx c).length = ds.length - 1 := by
  rw [List.length_eraseIdx, if_pos hcn]

/-- The method `CloseDir` on two or more panes and a valid cursor `c` removes the
entry at `c`, moves a cursor past the end to the new last index, and re-lays
out. -/
theorem CloseDir_struct (w : Workspace) (c : Nat) (hc : w.Cursor = (c : Int))
    (hcn : c < w.Dirs.length) (h2 : 2 ≤ w.Dirs.length) :
    w.CloseDir = Workspace.allocate { w with
      Dirs := w.Dirs.eraseIdx c,
      Cursor := if c + 1 = w.Dirs.length then (w.Dirs.length : Int) - 2 else (c : Int) } := by
  have c1 : ¬ w.len < 2 := by
    unfold Workspace.len
    omega
  have c2 : 0 ≤ w.Cursor ∧ w.Cursor + 1 ≤ w.len := by
    unfold Workspace.len
    omega
  have t1 : ((c : Int)).toNat = c := by omega
  have t2 : ((c : Int) + 1).toNat = c + 1 := by omega
  have hl := length_eraseIdx_of_lt w.Dirs c hcn
  unfold Workspace.CloseDir
  rw [if_neg c1]
  dsimp only
  rw [if_pos c2]
  simp only [hc, t1, t2, Workspace.len, ← List.eraseIdx_eq_take_drop_succ, hl]
  by_cases a : c + 1 = w.Dirs.length
  · have b : (c : Int) ≥ ((w.Dirs.length - 1 : Nat) : Int) := by omega
    rw [if_pos b, if_pos a]
    have e : ((w.Dirs.length - 1 : Nat) : Int) - 1 = (w.Dirs.length : Int) - 2 := by omega
    rw [e, attach_ok _ (by simp only; omega) (by simp only; rw [hl]; omega)]
  · have b : ¬ (c : Int) ≥ ((w.Dirs.length - 1 : Nat) : Int) := by omega
    rw [if_neg b, if_neg a]
    rw [attach_ok _ (by simp only; omega) (by simp only; rw [hl]; omega)]

theorem setAt_copyShiftRight (ds : List Directory) (x dir : Directory) :
    setAt (copyShiftRight (ds ++ [x])) 0 dir = dir :: ds := by
  cases ds with
  | nil => rfl
  | cons d ds =>
    have e : (d :: ds ++ [x]).dropLast = d :: ds := List.dropLast_concat
    simp only [List.cons_append, copyShiftRight]
    rw [List.cons_append] at e
    rw [e]
    rfl

theorem length_copyShiftRight (ds : List Directory) :
    (copyShiftRight ds).length = ds.length := by
  cases ds with
  | nil => rfl
  | cons d ds =>
    simp [copyShiftRight]

/-- The method `CreateDir`, once `os.UserHomeDir` has returned `path`, puts the new
pane in front of the others, sets the cursor to 0 and re-lays out. -/
theorem CreateDir_struct (w : Workspace) (path : String) (ptr : Nat) :
    w.CreateDir (some path) ptr = Workspace.allocate { w with
      Dirs := (NewDirectory ptr 0 0 0 0).Chdir path :: w.Dirs,
      Cursor := 0 } := by
  have ha : assignDir (copyShiftRight (w.Dirs ++ [(NewDirectory ptr 0 0 0 0).Chdir path])) 0
      ((NewDirectory ptr 0 0 0 0).Chdir path)
      = .ok ((NewDirectory ptr 0 0 0 0).Chdir path :: w.Dirs) := by
    unfold assignDir
    rw [if_pos (by rw [length_copyShiftRight]; simp)]
    rw [Int.toNat_zero, setAt_copyShiftRight]
  have hs := SetCursor_run
    { w with Dirs := (NewDirectory ptr 0 0 0 0).Chdir path :: w.Dirs } 0 (by simp)
  simp only [lt_self_iff_false, if_false] at hs
  have hs2 : (if (0 : Int) > ((((NewDirectory ptr 0 0 0 0).Chdir path :: w.Dirs).length : Nat)
      : Int) - 1 then ((((NewDirectory ptr 0 0 0 0).Chdir path :: w.Dirs).length : Nat) : Int) - 1
      else 0) = 0 := by
    rw [if_neg (by simp)]
  rw [hs2] at hs
  unfold Workspace.CreateDir
  simp only [ha, hs]

theorem panes_eraseIdx (ds : List Directory) (c : Nat) :
    (ds.eraseIdx c).map Directory.ident = (ds.map Directory.ident).eraseIdx c := by
  apply List.ext_getElem?
  intro k
  rw [List.getElem?_map, List.getElem?_eraseIdx, List.getElem?_eraseIdx]
  split_ifs <;> rw [List.getElem?_map]

theorem CursorValid_of_allocate (w w1 : Workspace) (hv : w.CursorValid)
    (h : w.allocate = .ok w1) : w1.CursorValid := by
  obtain ⟨hn, h0, h1⟩ := hv
  obtain ⟨hp, hc, _, _⟩ := allocate_of_ok w w1 hn h
  have hl := length_of_panes w1 w hp
  unfold Workspace.CursorValid
  rw [hl, hc]
  exact ⟨hn, h0, h1⟩

theorem CloseDir_small (w : Workspace) (h : w.Dirs.length < 2) : w.CloseDir = .ok w := by
  have c : w.len < 2 := by
    unfold Workspace.len
    omega
  unfold Workspace.CloseDir
  rw [if_pos c]

theorem succ_mod_eq (c n : Nat) (hcn : c < n) :
    (c + 1) % n = if c + 1 < n then c + 1 else 0 := by
  by_cases a : c + 1 < n
  · rw [if_pos a, Nat.mod_eq_of_lt a]
  · have e : c + 1 = n := by omega
    rw [if_neg a, e, Nat.mod_self]

theorem pred_mod_eq (c n : Nat) (hcn : c < n) :
    (c + n - 1) % n = if c = 0 then n - 1 else c - 1 := by
  by_cases a : c = 0
  · rw [if_pos a, a, Nat.zero_add, Nat.mod_eq_of_lt (by omega)]
  · have e : c + n - 1 = (c - 1) + n := by omega
    rw [if_neg a, e, Nat.add_mod_right, Nat.mod_eq_of_lt (by omega)]

/-! ## Coordinates within the range of `int` -/

theorem goAdd_of_fits (a b : Int) (hlo : -9223372036854775808 ≤ a + b)
    (hhi : a + b ≤ 9223372036854775807) : goAdd a b = a + b :=
  wrapInt_of_fits _ hlo hhi

theorem goSub_of_fits (a b : Int) (hlo : -9223372036854775808 ≤ a - b)
    (hhi : a - b ≤ 9223372036854775807) : goSub a b = a - b :=
  wrapInt_of_fits _ hlo hhi

theorem goMul_of_fits (a b : Int) (hlo : -9223372036854775808 ≤ a * b)
    (hhi : a * b ≤ 9223372036854775807) : goMul a b = a * b :=
  wrapInt_of_fits _ hlo hhi

/-- The first `j <= k` of `k` equal parts of `H` take up at most `H`. -/
theorem ediv_mul_bounds (H : Int) (k j : Nat) (hH : 0 ≤ H) (hk : 0 < k) (hj : j ≤ k) :
    0 ≤ H / (k : Int) * (j : Int) ∧ H / (k : Int) * (j : Int) ≤ H := by
  have hkpos : (0 : Int) < (k : Int) := by omega
  have hq : 0 ≤ H / (k : Int) := Int.ediv_nonneg hH (by omega)
  have hjk : (j : Int) ≤ (k : Int) := by omega
  have hj0 : (0 : Int) ≤ (j : Int) := by omega
  constructor
  · exact mul_nonneg hq hj0
  · calc H / (k : Int) * (j : Int) ≤ H / (k : Int) * (k : Int) :=
          mul_le_mul_of_nonneg_left hjk hq
      _ ≤ H := Int.ediv_mul_le H (by omega)

/-- One of `k` equal parts of `H` together with the remainder is at most `H`. -/
theorem ediv_add_emod_bounds (H : Int) (k : Nat) (hH : 0 ≤ H) (hk : 0 < k) :
    0 ≤ H / (k : Int) ∧ H / (k : Int) ≤ H ∧ 0 ≤ H % (k : Int) ∧
      H / (k : Int) + H % (k : Int) ≤ H := by
  have hkpos : (0 : Int) < (k : Int) := by omega
  have hq : 0 ≤ H / (k : Int) := Int.ediv_nonneg hH (by omega)
  have hr : 0 ≤ H % (k : Int) := Int.emod_nonneg H (by omega)
  have hsum : H % (k : Int) + (k : Int) * (H / (k : Int)) = H := Int.emod_add_ediv H k
  have hmul : H / (k : Int) ≤ (k : Int) * (H / (k : Int)) := by
    have h1 : (1 : Int) * (H / (k : Int)) ≤ (k : Int) * (H / (k : Int)) :=
      mul_le_mul_of_nonneg_right (by omega) hq
    simpa using h1
  refine ⟨hq, by omega, hr, by omega⟩

/-- The rectangles `LayoutTile` assigns to two or more panes, in Go's own
arithmetic. -/
theorem LayoutTile_rect (w : Workspace) (m : Nat) (hn : w.Dirs.length = m + 2) :
    ∃ w1, w.LayoutTile = .ok w1 ∧ w1.Layout = layoutType.layoutTile ∧
      w1.Window = w.Window ∧ w1.panes = w.panes ∧
      w1.rect 0 = some ⟨w.Window.x, w.Window.y, Int.tdiv w.Window.width 2,
        w.Window.height⟩ ∧
      (∀ j : Nat, j < m → w1.rect (j + 1) =
        some ⟨goAdd w.Window.x (Int.tdiv w.Window.width 2),
          goAdd w.Window.y (goMul (Int.tdiv w.Window.height ((m : Int) + 1)) (j : Int)),
          goAdd (Int.tdiv w.Window.width 2) (Int.tmod w.Window.width 2),
          Int.tdiv w.Window.height ((m : Int) + 1)⟩) ∧
      w1.rect (m + 1) =
        some ⟨goAdd w.Window.x (Int.tdiv w.Window.width 2),
          goAdd w.Window.y (goMul (Int.tdiv w.Window.height ((m : Int) + 1)) (m : Int)),
          goAdd (Int.tdiv w.Window.width 2) (Int.tmod w.Window.width 2),
          goAdd (Int.tdiv w.Window.height ((m : Int) + 1))
            (Int.tmod w.Window.height ((m : Int) + 1))⟩ := by
  refine ⟨_, LayoutTile_run w m hn, rfl, rfl, ?_, ?_, ?_, ?_⟩
  · simp [Workspace.panes, map_ident_resizePane, map_ident_resizeLoop]
  · obtain ⟨d, hd⟩ := getElem?_of_lt w.Dirs 0 (by omega)
    simp [Workspace.rect, getElem?_resizePane, getElem?_resizeLoop, hd]
  · intro j hj
    obtain ⟨d, hd⟩ := getElem?_of_lt w.Dirs (j + 1) (by omega)
    have c1 : ¬ (m + 1 = j + 1) := by omega
    have c2 : 1 ≤ j + 1 ∧ j + 1 < 1 + m := by omega
    simp [Workspace.rect, getElem?_resizePane, getElem?_resizeLoop, hd, c1, c2]
  · obtain ⟨d, hd⟩ := getElem?_of_lt w.Dirs (m + 1) (by omega)
    have c1 : ¬ (m + 1 < 1 + m) := by omega
    simp [Workspace.rect, getElem?_resizePane, getElem?_resizeLoop, hd, c1]

/-- The rectangles `LayoutTileTop` assigns to two or more panes, in Go's own
arithmetic. -/
theorem LayoutTileTop_rect (w : Workspace) (m : Nat) (hn : w.Dirs.length = m + 2) :
    ∃ w1, w.LayoutTileTop = .ok w1 ∧ w1.Layout = layoutType.layoutTileTop ∧
      w1.Window = w.Window ∧ w1.panes = w.panes ∧
      w1.rect 0 = some ⟨w.Window.x, goAdd w.Window.y (Int.tdiv w.Window.height 2),
        w.Window.width,
        goAdd (Int.tdiv w.Window.height 2) (Int.tmod w.Window.height 2)⟩ ∧
      (∀ j : Nat, j < m → w1.rect (j + 1) =
        some ⟨goAdd w.Window.x (goMul (Int.tdiv w.Window.width ((m : Int) + 1)) (j : Int)),
          w.Window.y, Int.tdiv w.Window.width ((m : Int) + 1),
          Int.tdiv w.Window.height 2⟩) ∧
      w1.rect (m + 1) =
        some ⟨goAdd w.Window.x (goMul (Int.tdiv w.Window.width ((m : Int) + 1)) (m : Int)),
          w.Window.y,
          goAdd (Int.tdiv w.Window.width ((m : Int) + 1)) (Int.tmod w.Window.width 2),
          Int.tdiv w.Window.height 2⟩ := by
  refine ⟨_, LayoutTileTop_run w m hn, rfl, rfl, ?_, ?_, ?_, ?_⟩
  · simp [Workspace.panes, map_ident_resizePane, map_ident_resizeLoop]
  · obtain ⟨d, hd⟩ := getElem?_of_lt w.Dirs 0 (by omega)
    simp [Workspace.rect, getElem?_resizePane, getElem?_resizeLoop, hd]
  · intro j hj
    obtain ⟨d, hd⟩ := getElem?_of_lt w.Dirs (j + 1) (by omega)
    have c1 : ¬ (m + 1 = j + 1) := by omega
    have c2 : 1 ≤ j + 1 ∧ j + 1 < 1 + m := by omega
    simp [Workspace.rect, getElem?_resizePane, getElem?_resizeLoop, hd, c1, c2]
  · obtain ⟨d, hd⟩ := getElem?_of_lt w.Dirs (m + 1) (by omega)
    have c1 : ¬ (m + 1 < 1 + m) := by omega
    simp [Workspace.rect, getElem?_resizePane, getElem?_resizeLoop, hd, c1]

/-- The rectangles `LayoutTileBottom` assigns to two or more panes, in Go's own
arithmetic. -/
theorem LayoutTileBottom_rect (w : Workspace) (m : Nat) (hn : w.Dirs.length = m + 2) :
    ∃ w1, w.LayoutTileBottom = .ok w1 ∧ w1.Layout = layoutType.layoutTileBottom ∧
      w1.Window = w.Window ∧ w1.panes = w.panes ∧
      w1.rect 0 = some ⟨w.Window.x, w.Window.y, w.Window.width,
        Int.tdiv w.Window.height 2⟩ ∧
      (∀ j : Nat, j < m → w1.rect (j + 1) =
        some ⟨goAdd w.Window.x (goMul (Int.tdiv w.Window.width ((m : Int) + 1)) (j : Int)),
          goAdd w.Window.y (Int.tdiv w.Window.height 2),
          Int.tdiv w.Window.width ((m : Int) + 1),
          goAdd (Int.tdiv w.Window.height 2) (Int.tmod w.Window.height 2)⟩) ∧
      w1.rect (m + 1) =
        some ⟨goAdd w.Window.x (goMul (Int.tdiv w.Window.width ((m : Int) + 1)) (m : Int)),
          goAdd w.Window.y (Int.tdiv w.Window.height 2),
          goAdd (Int.tdiv w.Window.width ((m : Int) + 1)) (Int.tmod w.Window.width 2),
          goAdd (Int.tdiv w.Window.height 2) (Int.tmod w.Window.height 2)⟩ := by
  refine ⟨_, LayoutTileBottom_run w m hn, rfl, rfl, ?_, ?_, ?_, ?_⟩
  · simp [Workspace.panes, map_ident_resizePane, map_ident_resizeLoop]
  · obtain ⟨d, hd⟩ := getElem?_of_lt w.Dirs 0 (by omega)
    simp [Workspace.rect, getElem?_resizePane, getElem?_resizeLoop, hd]
  · intro j hj
    obtain ⟨d, hd⟩ := getElem?_of_lt w.Dirs (j + 1) (by omega)
    have c1 : ¬ (m + 1 = j + 1) := by omega
    have c2 : 1 ≤ j + 1 ∧ j + 1 < 1 + m := by omega
    simp [Workspace.rect, getElem?_resizePane, getElem?_resizeLoop, hd, c1, c2]
  · obtain ⟨d, hd⟩ := getElem?_of_lt w.Dirs (m + 1) (by omega)
    have c1 : ¬ (m + 1 < 1 + m) := by omega
    simp [Workspace.rect, getElem?_resizePane, getElem?_resizeLoop, hd, c1]

/-! ## Workspaces the program can be in -/

theorem LayoutTileTop_empty (w : Workspace) (hlen : w.Dirs.length = 0) :
    w.LayoutTileTop = .error GoPanic.indexOutOfRange := by
  unfold Workspace.LayoutTileTop
  simp only [Workspace.len, hlen]
  simp [resizeDir, hlen]
  rfl

/-- The method `LayoutTileTop` returns only on two or more panes, and keeps them. -/
theorem LayoutTileTop_of_ok (w w1 : Workspace) (h : w.LayoutTileTop = .ok w1) :
    2 ≤ w.Dirs.length ∧ w1.Dirs.length = w.Dirs.length ∧
      w1.Layout = layoutType.layoutTileTop := by
  by_cases h0 : w.Dirs.length = 0
  · rw [LayoutTileTop_empty w h0] at h
    cases h
  · by_cases h1 : w.Dirs.length = 1
    · rw [LayoutTileTop_one w h1] at h
      cases h
    · obtain ⟨w2, hrun, hl, _, hp, _⟩ := LayoutTileTop_rect w (w.Dirs.length - 2) (by omega)
      rw [hrun] at h
      cases h
      exact ⟨by omega, length_of_panes _ _ hp, hl⟩

/-- Whenever the re-layout of a workspace with a pane returns, a workspace in mode
`TileTop` has two panes or more. -/
theorem TileTopHasTwo_of_allocate (w w1 : Workspace) (hn : 1 ≤ w.Dirs.length)
    (h : w.allocate = .ok w1) : w1.TileTopHasTwo := by
  obtain ⟨hp, _, hl, _⟩ := allocate_of_ok w w1 hn h
  intro hL
  rw [length_of_panes _ _ hp]
  rw [hl] at hL
  by_cases h1 : w.Dirs.length = 1
  · rw [allocate_one_TileTop w hL h1] at h
    cases h
  · omega

/-- The property `TileTopHasTwo` holds of every workspace the program builds: of
the result of `NewWorkspace`, of every result of `LayoutTileTop`, and of every
workspace a pane-management method returns from a workspace that has it. -/
theorem TileTopHasTwo_kept :
    (∀ x y width height title, (NewWorkspace x y width height title).TileTopHasTwo) ∧
    (∀ w w1 : Workspace, w.LayoutTileTop = .ok w1 → w1.TileTopHasTwo) ∧
    (∀ (w w1 : Workspace) home ptr, w.CreateDir home ptr = .ok w1 → w1.TileTopHasTwo) ∧
    (∀ w : Workspace, w.CursorValid → w.TileTopHasTwo →
      (∀ w1, w.CloseDir = .ok w1 → w1.TileTopHasTwo) ∧
      (∀ delta w1, w.MoveCursor delta = .ok w1 → w1.TileTopHasTwo) ∧
      (∀ x w1, w.SetCursor x = .ok w1 → w1.TileTopHasTwo) ∧
      (∀ w1, w.SwapNextDir = .ok w1 → w1.TileTopHasTwo) ∧
      (∀ w1, w.SwapPrevDir = .ok w1 → w1.TileTopHasTwo)) := by
  refine ⟨?_, ?_, ?_, ?_⟩
  · intro x y width height title hL
    cases hL
  · intro w w1 h hL
    obtain ⟨h2, hl, _⟩ := LayoutTileTop_of_ok w w1 h
    omega
  · intro w w1 home ptr h
    cases home with
    | none => cases h
    | some path =>
      rw [CreateDir_struct] at h
      exact TileTopHasTwo_of_allocate _ w1 (by simp) h
  · intro w hv hT
    obtain ⟨hn, h0, h1⟩ := hv
    obtain ⟨c, hc⟩ : ∃ c : Nat, w.Cursor = (c : Int) := ⟨w.Cursor.toNat, by omega⟩
    have hcn : c < w.Dirs.length := by omega
    refine ⟨?_, ?_, ?_, ?_, ?_⟩
    · intro w1 h
      by_cases h2 : 2 ≤ w.Dirs.length
      · rw [CloseDir_struct w c hc hcn h2] at h
        exact TileTopHasTwo_of_allocate _ w1
          (by simp only; rw [length_eraseIdx_of_lt w.Dirs c hcn]; omega) h
      · rw [CloseDir_small w (by omega)] at h
        cases h
        exact hT
    · intro delta w1 h
      obtain ⟨c1, hm, _, _⟩ := MoveCursor_valid w delta hn
      rw [hm] at h
      cases h
      exact hT
    · intro x w1 h
      rw [SetCursor_run w x hn] at h
      cases h
      exact hT
    · intro w1 h
      obtain ⟨ds1, c1, hl, _, _, hs⟩ := SwapNextDir_struct w h0 h1
      rw [hs] at h
      exact TileTopHasTwo_of_allocate _ w1 (by simp only; omega) h
    · intro w1 h
      obtain ⟨ds1, c1, hl, _, _, hs⟩ := SwapPrevDir_struct w h0 h1
      rw [hs] at h
      exact TileTopHasTwo_of_allocate _ w1 (by simp only; omega) h

/-- C1: the layout of `TileTop` and `TileBottom` is not a partition of the
workspace rectangle.  Four panes under `TileTop` in the 10 x 10 rectangle at
`(0, 0)` get three columns of width 3 in the top strip: the areas sum to 95, not
100, and the cell `(9, 0)` of the workspace lies in no pane.  Two panes under
`TileBottom` in the 9 x 9 rectangle get a second pane of width 10, which holds
the cell `(9, 4)` outside the workspace, and the areas sum to 86, not 81.  One
pane under `TileTop` gets no layout at all: the method panics. -/
theorem TileTop_TileBottom_no_partition :
    ((sampleWorkspace 4 0 0 10 10 layoutType.layoutTile 0).LayoutTileTop).map Workspace.rects
        = .ok [⟨0, 5, 10, 5⟩, ⟨0, 0, 3, 5⟩, ⟨3, 0, 3, 5⟩, ⟨6, 0, 3, 5⟩] ∧
      (([⟨0, 5, 10, 5⟩, ⟨0, 0, 3, 5⟩, ⟨3, 0, 3, 5⟩, ⟨6, 0, 3, 5⟩] : List Window).map
        Window.area).sum = 95 ∧
      Window.area ⟨0, 0, 10, 10⟩ = 100 ∧
      Window.contains ⟨0, 0, 10, 10⟩ 9 0 ∧
      (∀ r ∈ ([⟨0, 5, 10, 5⟩, ⟨0, 0, 3, 5⟩, ⟨3, 0, 3, 5⟩, ⟨6, 0, 3, 5⟩] : List Window),
        ¬ r.contains 9 0) ∧
      ((sampleWorkspace 2 0 0 9 9 layoutType.layoutTile 0).LayoutTileBottom).map Workspace.rects
        = .ok [⟨0, 0, 9, 4⟩, ⟨0, 4, 10, 5⟩] ∧
      Window.contains ⟨0, 4, 10, 5⟩ 9 4 ∧
      ¬ Window.contains ⟨0, 0, 9, 9⟩ 9 4 ∧
      (([⟨0, 0, 9, 4⟩, ⟨0, 4, 10, 5⟩] : List Window).map Window.area).sum = 86 ∧
      Window.area ⟨0, 0, 9, 9⟩ = 81 ∧
      (sampleWorkspace 1 0 0 10 10 layoutType.layoutTile 0).LayoutTileTop
        = .error GoPanic.divideByZero := by
  refine ⟨rfl, by decide, by decide, by decide, by decide, rfl, by decide, by decide,
    by decide, by decide, rfl⟩

/-- C2: what `LayoutTileTop` computes on `n = k + 1 >= 2` panes and bounds
`(x, y, W, H)` with `W, H >= 0` lying in the range of `int`, where the width
`W/k + W mod 2` of the last column is at most the largest `int`.  Pane 0 gets
`(x, y + H/2, W, H/2 + H mod 2)` and the `j`-th secondary pane (`j + 1 < k`) gets
`(x + (W/k)*j, y, W/k, H/2)`, as the claim says; the last secondary pane gets the
width `W/k + W mod 2`, the remainder of dividing `W` by 2, where the claim has
the remainder `W mod k` of dividing `W` into `k` columns. -/
theorem LayoutTileTop_rects (w : Workspace) (k : Nat) (hk : 1 ≤ k)
    (hlen : w.Dirs.length = k + 1) (hW : 0 ≤ w.Window.width) (hH : 0 ≤ w.Window.height)
    (hR : w.Window.InRange)
    (hlastw : w.Window.width / k + w.Window.width % 2 ≤ 9223372036854775807) :
    ∃ w1, w.LayoutTileTop = .ok w1 ∧ w1.Layout = layoutType.layoutTileTop ∧
      w1.Window = w.Window ∧ w1.panes = w.panes ∧
      w1.rect 0 = some ⟨w.Window.x, w.Window.y + w.Window.height / 2, w.Window.width,
        w.Window.height / 2 + w.Window.height % 2⟩ ∧
      (∀ j : Nat, j + 1 < k → w1.rect (j + 1) =
        some ⟨w.Window.x + w.Window.width / k * j, w.Window.y, w.Window.width / k,
          w.Window.height / 2⟩) ∧
      w1.rect k =
        some ⟨w.Window.x + w.Window.width / k * ((k : Int) - 1), w.Window.y,
          w.Window.width / k + w.Window.width % 2, w.Window.height / 2⟩ := by
  obtain ⟨m, rfl⟩ : ∃ m, k = m + 1 := ⟨k - 1, by omega⟩
  obtain ⟨w1, hrun, hl, hwin, hp, r0, rj, rlast⟩ := LayoutTileTop_rect w m hlen
  obtain ⟨hx, hy, hWm, hHm, hxW, hyH⟩ := hR
  have hcast : ((m + 1 : Nat) : Int) = (m : Int) + 1 := by
    push_cast
    rfl
  have d2 : Int.tdiv w.Window.height 2 = w.Window.height / 2 :=
    Int.tdiv_eq_ediv hH (by norm_num)
  have r2 : Int.tmod w.Window.height 2 = w.Window.height % 2 :=
    Int.tmod_eq_emod hH (by norm_num)
  have w2 : Int.tmod w.Window.width 2 = w.Window.width % 2 :=
    Int.tmod_eq_emod hW (by norm_num)
  have dk : Int.tdiv w.Window.width ((m : Int) + 1) = w.Window.width / ((m : Int) + 1) :=
    Int.tdiv_eq_ediv hW (by omega)
  have ey : goAdd w.Window.y (w.Window.height / 2) = w.Window.y + w.Window.height / 2 :=
    goAdd_of_fits _ _ (by omega) (by omega)
  have eh : goAdd (w.Window.height / 2) (w.Window.height % 2)
      = w.Window.height / 2 + w.Window.height % 2 :=
    goAdd_of_fits _ _ (by omega) (by omega)
  have hb := ediv_add_emod_bounds w.Window.width (m + 1) hW (by omega)
  rw [hcast] at hb hlastw
  have ew : goAdd (w.Window.width / ((m : Int) + 1)) (w.Window.width % 2)
      = w.Window.width / ((m : Int) + 1) + w.Window.width % 2 :=
    goAdd_of_fits _ _ (by omega) (by omega)
  have e2 : ∀ j : Nat, j ≤ m →
      goAdd w.Window.x (goMul (w.Window.width / ((m : Int) + 1)) (j : Int))
        = w.Window.x + w.Window.width / ((m : Int) + 1) * (j : Int) := by
    intro j hj
    have hm2 := ediv_mul_bounds w.Window.width (m + 1) j hW (by omega) (by omega)
    rw [hcast] at hm2
    rw [goMul_of_fits _ _ (by omega) (by omega)]
    exact goAdd_of_fits _ _ (by omega) (by omega)
  have hlast : ((m : Int) + 1) - 1 = (m : Int) := by ring
  rw [hcast, hlast]
  refine ⟨w1, hrun, hl, hwin, hp, ?_, ?_, ?_⟩
  · rw [r0, d2, r2, ey, eh]
  · intro j hj
    rw [rj j (by omega), d2, dk, e2 j (by omega)]
  · rw [rlast, d2, w2, dk, e2 m (le_refl m), ew]

/-- C2 at four panes in the 10 x 10 rectangle at `(0, 0)`: the last of the three
columns gets the width `3 + 10 mod 2 = 3`, where the claim gives it
`10/3 + 10 mod 3 = 4`. -/
theorem LayoutTileTop_rects_witness :
    ∃ w1, (sampleWorkspace 4 0 0 10 10 layoutType.layoutTile 0).LayoutTileTop = .ok w1 ∧
      w1.rect 3 = some ⟨6, 0, 3, 5⟩ ∧ (10 : Int) / 3 + 10 % 3 = 4 := by
  obtain ⟨w1, h, _, _, _, _, _, hlast⟩ :=
    LayoutTileTop_rects (sampleWorkspace 4 0 0 10 10 layoutType.layoutTile 0) 3
      (by decide) (by decide) (by decide) (by decide) (by decide) (by decide)
  exact ⟨w1, h, hlast, by decide⟩

/-- C3: what `LayoutTileBottom` computes on `n = k + 1 >= 2` panes and bounds
`(x, y, W, H)` with `W, H >= 0` lying in the range of `int`, where the width
`W/k + W mod 2` of the last column is at most the largest `int`.  Pane 0 gets
`(x, y, W, H/2)` and the `j`-th secondary pane (`j + 1 < k`) gets
`(x + (W/k)*j, y + H/2, W/k, H/2 + H mod 2)`, as the claim says; the last
secondary pane gets the width `W/k + W mod 2`, the remainder of dividing `W` by
2, where the claim has the remainder `W mod k`. -/
theorem LayoutTileBottom_rects (w : Workspace) (k : Nat) (hk : 1 ≤ k)
    (hlen : w.Dirs.length = k + 1) (hW : 0 ≤ w.Window.width) (hH : 0 ≤ w.Window.height)
    (hR : w.Window.InRange)
    (hlastw : w.Window.width / k + w.Window.width % 2 ≤ 9223372036854775807) :
    ∃ w1, w.LayoutTileBottom = .ok w1 ∧ w1.Layout = layoutType.layoutTileBottom ∧
      w1.Window = w.Window ∧ w1.panes = w.panes ∧
      w1.rect 0 = some ⟨w.Window.x, w.Window.y, w.Window.width, w.Window.height / 2⟩ ∧
      (∀ j : Nat, j + 1 < k → w1.rect (j + 1) =
        some ⟨w.Window.x + w.Window.width / k * j, w.Window.y + w.Window.height / 2,
          w.Window.width / k, w.Window.height / 2 + w.Window.height % 2⟩) ∧
      w1.rect k =
        some ⟨w.Window.x + w.Window.width / k * ((k : Int) - 1),
          w.Window.y + w.Window.height / 2,
          w.Window.width / k + w.Window.width % 2,
          w.Window.height / 2 + w.Window.height % 2⟩ := by
  obtain ⟨m, rfl⟩ : ∃ m, k = m + 1 := ⟨k - 1, by omega⟩
  obtain ⟨w1, hrun, hl, hwin, hp, r0, rj, rlast⟩ := LayoutTileBottom_rect w m hlen
  obtain ⟨hx, hy, hWm, hHm, hxW, hyH⟩ := hR
  have hcast : ((m + 1 : Nat) : Int) = (m : Int) + 1 := by
    push_cast
    rfl
  have d2 : Int.tdiv w.Window.height 2 = w.Window.height / 2 :=
    Int.tdiv_eq_ediv hH (by norm_num)
  have r2 : Int.tmod w.Window.height 2 = w.Window.height % 2 :=
    Int.tmod_eq_emod hH (by norm_num)
  have w2 : Int.tmod w.Window.width 2 = w.Window.width % 2 :=
    Int.tmod_eq_emod hW (by norm_num)
  have dk : Int.tdiv w.Window.width ((m : Int) + 1) = w.Window.width / ((m : Int) + 1) :=
    Int.tdiv_eq_ediv hW (by omega)
  have ey : goAdd w.Window.y (w.Window.height / 2) = w.Window.y + w.Window.height / 2 :=
    goAdd_of_fits _ _ (by omega) (by omega)
  have eh : goAdd (w.Window.height / 2) (w.Window.height % 2)
      = w.Window.height / 2 + w.Window.height % 2 :=
    goAdd_of_fits _ _ (by omega) (by omega)
  have hb := ediv_add_emod_bounds w.Window.width (m + 1) hW (by omega)
  rw [hcast] at hb hlastw
  have ew : goAdd (w.Window.width / ((m : Int) + 1)) (w.Window.width % 2)
      = w.Window.width / ((m : Int) + 1) + w.Window.width % 2 :=
    goAdd_of_fits _ _ (by omega) (by omega)
  have e2 : ∀ j : Nat, j ≤ m →
      goAdd w.Window.x (goMul (w.Window.width / ((m : Int) + 1)) (j : Int))
        = w.Window.x + w.Window.width / ((m : Int) + 1) * (j : Int) := by
    intro j hj
    have hm2 := ediv_mul_bounds w.Window.width (m + 1) j hW (by omega) (by omega)
    rw [hcast] at hm2
    rw [goMul_of_fits _ _ (by omega) (by omega)]
    exact goAdd_of_fits _ _ (by omega) (by omega)
  have hlast : ((m : Int) + 1) - 1 = (m : Int) := by ring
  rw [hcast, hlast]
  refine ⟨w1, hrun, hl, hwin, hp, ?_, ?_, ?_⟩
  · rw [r0, d2]
  · intro j hj
    rw [rj j (by omega), d2, r2, dk, e2 j (by omega), ey, eh]
  · rw [rlast, d2, r2, w2, dk, e2 m (le_refl m), ey, eh, ew]

/-- C3 at two panes in the 9 x 9 rectangle at `(0, 0)`: the only column gets the
width `9 + 9 mod 2 = 10`, where the claim gives it `9/1 + 9 mod 1 = 9`. -/
theorem LayoutTileBottom_rects_witness :
    ∃ w1, (sampleWorkspace 2 0 0 9 9 layoutType.layoutTile 0).LayoutTileBottom = .ok w1 ∧
      w1.rect 1 = some ⟨0, 4, 10, 5⟩ ∧ (9 : Int) / 1 + 9 % 1 = 9 := by
  obtain ⟨w1, h, _, _, _, _, _, hlast⟩ :=
    LayoutTileBottom_rects (sampleWorkspace 2 0 0 9 9 layoutType.layoutTile 0) 1
      (by decide) (by decide) (by decide) (by decide) (by decide) (by decide)
  exact ⟨w1, h, hlast, by decide⟩

/-- C4: on a workspace with exactly one pane, `LayoutTileBottom` and `LayoutTile`
return and leave the sole pane with the full rectangle `(x, y, W, H)`, while
`LayoutTileTop`, whose branch `dlen < 2` does not return, goes on to divide by
`k = 0` and panics. -/
theorem LayoutTileTop_one_pane (w : Workspace) (hlen : w.Dirs.length = 1) :
    w.LayoutTileTop = .error GoPanic.divideByZero ∧
      (∃ wb, w.LayoutTileBottom = .ok wb ∧ wb.panes = w.panes ∧
        wb.rect 0 = some w.Window) ∧
      (∃ wt, w.LayoutTile = .ok wt ∧ wt.panes = w.panes ∧ wt.rect 0 = some w.Window) := by
  obtain ⟨d, hd⟩ := getElem?_of_lt w.Dirs 0 (by omega)
  refine ⟨LayoutTileTop_one w hlen, ⟨_, LayoutTileBottom_one w hlen, ?_, ?_⟩,
    ⟨_, LayoutTile_one w hlen, ?_, ?_⟩⟩
  · simp [Workspace.panes, map_ident_resizePane]
  · simp [Workspace.rect, getElem?_resizePane, hd]
  · simp [Workspace.panes, map_ident_resizePane]
  · simp [Workspace.rect, getElem?_resizePane, hd]

/-- C4 at one pane in the 10 x 10 rectangle at `(0, 0)`. -/
theorem LayoutTileTop_one_pane_witness :
    (sampleWorkspace 1 0 0 10 10 layoutType.layoutTile 0).LayoutTileTop
        = .error GoPanic.divideByZero ∧
      ((sampleWorkspace 1 0 0 10 10 layoutType.layoutTile 0).LayoutTileBottom).map
        Workspace.rects = .ok [⟨0, 0, 10, 10⟩] :=
  ⟨(LayoutTileTop_one_pane (sampleWorkspace 1 0 0 10 10 layoutType.layoutTile 0)
    (by decide)).1, rfl⟩

/-- C5: `LayoutTile` on `n >= 1` panes and bounds `(x, y, W, H)` with `W, H >= 0`
lying in the range of `int` succeeds, keeps every pane in its place and sets the
rectangles: with one pane, pane 0 gets the full `(x, y, W, H)`; with
`n = k + 1 >= 2` panes, pane 0 gets `(x, y, W/2, H)`, the `j`-th secondary pane
(pane `j + 1`, `j + 1 < k`) gets `(x + W/2, y + (H/k)*j, W/2 + W mod 2, H/k)` and
the last secondary pane (pane `k`) gets
`(x + W/2, y + (H/k)*(k-1), W/2 + W mod 2, H/k + H mod k)`. -/
theorem LayoutTile_rects (w : Workspace) (hn : 1 ≤ w.Dirs.length)
    (hW : 0 ≤ w.Window.width) (hH : 0 ≤ w.Window.height) (hR : w.Window.InRange) :
    ∃ w1, w.LayoutTile = .ok w1 ∧ w1.Layout = layoutType.layoutTile ∧
      w1.Window = w.Window ∧ w1.panes = w.panes ∧
      (w.Dirs.length = 1 →
        w1.rect 0 = some ⟨w.Window.x, w.Window.y, w.Window.width, w.Window.height⟩) ∧
      (∀ k : Nat, 1 ≤ k → w.Dirs.length = k + 1 →
        w1.rect 0 = some ⟨w.Window.x, w.Window.y, w.Window.width / 2, w.Window.height⟩ ∧
        (∀ j : Nat, j + 1 < k → w1.rect (j + 1) =
          some ⟨w.Window.x + w.Window.width / 2, w.Window.y + w.Window.height / k * j,
            w.Window.width / 2 + w.Window.width % 2, w.Window.height / k⟩) ∧
        w1.rect k =
          some ⟨w.Window.x + w.Window.width / 2, w.Window.y + w.Window.height / k * (k - 1),
            w.Window.width / 2 + w.Window.width % 2,
            w.Window.height / k + w.Window.height % k⟩) := by
  by_cases h1 : w.Dirs.length = 1
  · refine ⟨_, LayoutTile_one w h1, rfl, rfl, ?_, ?_, ?_⟩
    · simp [Workspace.panes, map_ident_resizePane]
    · intro _
      obtain ⟨d, hd⟩ := getElem?_of_lt w.Dirs 0 (by omega)
      simp [Workspace.rect, getElem?_resizePane, hd]
    · intro k hk hlen
      omega
  · obtain ⟨m, hm⟩ : ∃ m, w.Dirs.length = m + 2 := ⟨w.Dirs.length - 2, by omega⟩
    obtain ⟨w1, hrun, hl, hwin, hp, r0, rj, rlast⟩ := LayoutTile_rect w m hm
    obtain ⟨hx, hy, hWm, hHm, hxW, hyH⟩ := hR
    refine ⟨w1, hrun, hl, hwin, hp, ?_, ?_⟩
    · intro h
      omega
    · intro k hk hlen
      have hkm : k = m + 1 := by omega
      subst hkm
      have hcast : ((m + 1 : Nat) : Int) = (m : Int) + 1 := by
        push_cast
        rfl
      have d2 : Int.tdiv w.Window.width 2 = w.Window.width / 2 :=
        Int.tdiv_eq_ediv hW (by norm_num)
      have r2 : Int.tmod w.Window.width 2 = w.Window.width % 2 :=
        Int.tmod_eq_emod hW (by norm_num)
      have dk : Int.tdiv w.Window.height ((m : Int) + 1) = w.Window.height / ((m : Int) + 1) :=
        Int.tdiv_eq_ediv hH (by omega)
      have rk : Int.tmod w.Window.height ((m : Int) + 1) = w.Window.height % ((m : Int) + 1) :=
        Int.tmod_eq_emod hH (by omega)
      have e1 : goAdd w.Window.x (w.Window.width / 2) = w.Window.x + w.Window.width / 2 :=
        goAdd_of_fits _ _ (by omega) (by omega)
      have e3 : goAdd (w.Window.width / 2) (w.Window.width % 2)
          = w.Window.width / 2 + w.Window.width % 2 :=
        goAdd_of_fits _ _ (by omega) (by omega)
      have hb := ediv_add_emod_bounds w.Window.height (m + 1) hH (by omega)
      rw [hcast] at hb
      have e4 : goAdd (w.Window.height / ((m : Int) + 1)) (w.Window.height % ((m : Int) + 1))
          = w.Window.height / ((m : Int) + 1) + w.Window.height % ((m : Int) + 1) :=
        goAdd_of_fits _ _ (by omega) (by omega)
      have e2 : ∀ j : Nat, j ≤ m →
          goAdd w.Window.y (goMul (w.Window.height / ((m : Int) + 1)) (j : Int))
            = w.Window.y + w.Window.height / ((m : Int) + 1) * (j : Int) := by
        intro j hj
        have hm2 := ediv_mul_bounds w.Window.height (m + 1) j hH (by omega) (by omega)
        rw [hcast] at hm2
        rw [goMul_of_fits _ _ (by omega) (by omega)]
        exact goAdd_of_fits _ _ (by omega) (by omega)
      have hlast : ((m : Int) + 1) - 1 = (m : Int) := by ring
      rw [hcast, hlast]
      refine ⟨?_, ?_, ?_⟩
      · rw [r0, d2]
      · intro j hj
        rw [rj j (by omega), d2, r2, dk, e1, e2 j (by omega), e3]
      · rw [rlast, d2, r2, dk, rk, e1, e2 m (le_refl m), e3, e4]

/-- C5, the worked example: three panes under `Tile` in a 9 x 9 rectangle get
`(x, y, 4, 9)`, then width 5 and heights 4 and 5. -/
theorem LayoutTile_rects_witness :
    ∃ w1, (sampleWorkspace 3 0 0 9 9 layoutType.layoutOneline 0).LayoutTile = .ok w1 ∧
      w1.rect 0 = some ⟨0, 0, 4, 9⟩ ∧ w1.rect 1 = some ⟨4, 0, 5, 4⟩ ∧
      w1.rect 2 = some ⟨4, 4, 5, 5⟩ := by
  obtain ⟨w1, h, _, _, _, _, hk⟩ :=
    LayoutTile_rects (sampleWorkspace 3 0 0 9 9 layoutType.layoutOneline 0)
      (by decide) (by decide) (by decide) (by decide)
  obtain ⟨h0, h1, h2⟩ := hk 2 (by decide) (by decide)
  exact ⟨w1, h, h0, h1 0 (by decide), h2⟩

/-- C6: `LayoutOneline` on `n >= 1` panes and bounds `(x, y, W, H)` with `W >= 0`
lying in the range of `int` succeeds, keeps every pane in its place and gives
pane `i` the rectangle `(x + (W/n)*i, y, W/n, H)`, the last pane (`i = n - 1`)
having the width `W/n + W mod n`. -/
theorem LayoutOneline_rects (w : Workspace) (n : Nat) (hlen : w.Dirs.length = n)
    (hn : 1 ≤ n) (hW : 0 ≤ w.Window.width) (hR : w.Window.InRange) :
    ∃ w1, w.LayoutOneline = .ok w1 ∧ w1.Layout = layoutType.layoutOneline ∧
      w1.Window = w.Window ∧ w1.panes = w.panes ∧
      (∀ i : Nat, i + 1 < n → w1.rect i =
        some ⟨w.Window.x + w.Window.width / n * i, w.Window.y, w.Window.width / n,
          w.Window.height⟩) ∧
      w1.rect (n - 1) =
        some ⟨w.Window.x + w.Window.width / n * ((n : Int) - 1), w.Window.y,
          w.Window.width / n + w.Window.width % n, w.Window.height⟩ := by
  obtain ⟨m, rfl⟩ : ∃ m, n = m + 1 := ⟨n - 1, by omega⟩
  obtain ⟨w1, hrun, hl, hwin, hp, hr⟩ := LayoutOneline_rect w m hlen
  obtain ⟨hx, hy, hWm, hHm, hxW, hyH⟩ := hR
  have hcast : ((m + 1 : Nat) : Int) = (m : Int) + 1 := by
    push_cast
    rfl
  have dk : Int.tdiv w.Window.width ((m : Int) + 1) = w.Window.width / ((m : Int) + 1) :=
    Int.tdiv_eq_ediv hW (by omega)
  have rk : Int.tmod w.Window.width ((m : Int) + 1) = w.Window.width % ((m : Int) + 1) :=
    Int.tmod_eq_emod hW (by omega)
  have hb := ediv_add_emod_bounds w.Window.width (m + 1) hW (by omega)
  rw [hcast] at hb
  have e4 : goAdd (w.Window.width / ((m : Int) + 1)) (w.Window.width % ((m : Int) + 1))
      = w.Window.width / ((m : Int) + 1) + w.Window.width % ((m : Int) + 1) :=
    goAdd_of_fits _ _ (by omega) (by omega)
  have e2 : ∀ j : Nat, j ≤ m →
      goAdd w.Window.x (goMul (w.Window.width / ((m : Int) + 1)) (j : Int))
        = w.Window.x + w.Window.width / ((m : Int) + 1) * (j : Int) := by
    intro j hj
    have hm2 := ediv_mul_bounds w.Window.width (m + 1) j hW (by omega) (by omega)
    rw [hcast] at hm2
    rw [goMul_of_fits _ _ (by omega) (by omega)]
    exact goAdd_of_fits _ _ (by omega) (by omega)
  have hlast : ((m : Int) + 1) - 1 = (m : Int) := by ring
  rw [hcast, hlast]
  refine ⟨w1, hrun, hl, hwin, hp, ?_, ?_⟩
  · intro i hi
    have c : i < m := by omega
    rw [hr i, if_pos c, dk, e2 i (by omega)]
  · have c : m + 1 - 1 = m := by omega
    rw [c, hr m, if_neg (by omega), if_pos rfl, dk, rk, e2 m (le_refl m), e4]

/-- C6, the worked example: three panes under `OneLine` in a 10 x 10 rectangle
get the column widths 3, 3, 4, each of height 10. -/
theorem LayoutOneline_rects_witness :
    ∃ w1, (sampleWorkspace 3 0 0 10 10 layoutType.layoutTile 0).LayoutOneline = .ok w1 ∧
      w1.rect 0 = some ⟨0, 0, 3, 10⟩ ∧ w1.rect 1 = some ⟨3, 0, 3, 10⟩ ∧
      w1.rect 2 = some ⟨6, 0, 4, 10⟩ := by
  obtain ⟨w1, h, _, _, _, hi, hlast⟩ :=
    LayoutOneline_rects (sampleWorkspace 3 0 0 10 10 layoutType.layoutTile 0) 3
      (by decide) (by decide) (by decide) (by decide)
  exact ⟨w1, h, hi 0 (by decide), hi 1 (by decide), hlast⟩

/-- C7: `LayoutOnecolumn` is `LayoutOneline` with the axes exchanged.  On `n >= 1`
panes and bounds `(x, y, W, H)` with `H >= 0` lying in the range of `int` both
succeed, the one on the bounds themselves and the other on the transposed
bounds `(y, x, H, W)`, and the rectangle `LayoutOnecolumn` gives pane `i` is the
transpose of the rectangle `LayoutOneline` gives pane `i`; so the panes are `n`
rows `(x, y + (H/n)*i, W, H/n)`, the last row having the height `H/n + H mod n`. -/
theorem LayoutOnecolumn_transposes (w : Workspace) (n : Nat) (hlen : w.Dirs.length = n)
    (hn : 1 ≤ n) (hH : 0 ≤ w.Window.height) (hR : w.Window.InRange) :
    ∃ wc wl, w.LayoutOnecolumn = .ok wc ∧
      Workspace.LayoutOneline { w with Window := w.Window.transpose } = .ok wl ∧
      wc.panes = w.panes ∧
      (∀ i : Nat, wc.rect i = (wl.rect i).map Window.transpose) ∧
      (∀ i : Nat, i + 1 < n → wc.rect i =
        some ⟨w.Window.x, w.Window.y + w.Window.height / n * i, w.Window.width,
          w.Window.height / n⟩) ∧
      wc.rect (n - 1) =
        some ⟨w.Window.x, w.Window.y + w.Window.height / n * ((n : Int) - 1), w.Window.width,
          w.Window.height / n + w.Window.height % n⟩ := by
  obtain ⟨m, rfl⟩ : ∃ m, n = m + 1 := ⟨n - 1, by omega⟩
  obtain ⟨wc, hc, _, _, hp, hrc⟩ := LayoutOnecolumn_rect w m hlen
  obtain ⟨wl, hl, _, _, _, hrl⟩ :=
    LayoutOneline_rect { w with Window := w.Window.transpose } m hlen
  obtain ⟨hx, hy, hWm, hHm, hxW, hyH⟩ := hR
  have hcast : ((m + 1 : Nat) : Int) = (m : Int) + 1 := by
    push_cast
    rfl
  have dk : Int.tdiv w.Window.height ((m : Int) + 1) = w.Window.height / ((m : Int) + 1) :=
    Int.tdiv_eq_ediv hH (by omega)
  have rk : Int.tmod w.Window.height ((m : Int) + 1) = w.Window.height % ((m : Int) + 1) :=
    Int.tmod_eq_emod hH (by omega)
  have hb := ediv_add_emod_bounds w.Window.height (m + 1) hH (by omega)
  rw [hcast] at hb
  have e4 : goAdd (w.Window.height / ((m : Int) + 1)) (w.Window.height % ((m : Int) + 1))
      = w.Window.height / ((m : Int) + 1) + w.Window.height % ((m : Int) + 1) :=
    goAdd_of_fits _ _ (by omega) (by omega)
  have e2 : ∀ j : Nat, j ≤ m →
      goAdd w.Window.y (goMul (w.Window.height / ((m : Int) + 1)) (j : Int))
        = w.Window.y + w.Window.height / ((m : Int) + 1) * (j : Int) := by
    intro j hj
    have hm2 := ediv_mul_bounds w.Window.height (m + 1) j hH (by omega) (by omega)
    rw [hcast] at hm2
    rw [goMul_of_fits _ _ (by omega) (by omega)]
    exact goAdd_of_fits _ _ (by omega) (by omega)
  have hlast : ((m : Int) + 1) - 1 = (m : Int) := by ring
  rw [hcast, hlast]
  refine ⟨wc, wl, hc, hl, hp, ?_, ?_, ?_⟩
  · intro i
    rw [hrc i, hrl i]
    by_cases h1 : i < m
    · simp [h1, Window.transpose]
    · by_cases h2 : i = m
      · simp [h2, Window.transpose]
      · simp [h1, h2]
  · intro i hi
    have c : i < m := by omega
    rw [hrc i, if_pos c, dk, e2 i (by omega)]
  · have c : m + 1 - 1 = m := by omega
    rw [c, hrc m, if_neg (by omega), if_pos rfl, dk, rk, e2 m (le_refl m), e4]

/-- C7 on three panes in a 7 x 10 rectangle at `(1, 2)`: rows of heights 3, 3, 4. -/
theorem LayoutOnecolumn_transposes_witness :
    ∃ wc wl, (sampleWorkspace 3 1 2 7 10 layoutType.layoutTile 0).LayoutOnecolumn = .ok wc ∧
      (sampleWorkspace 3 2 1 10 7 layoutType.layoutTile 0).LayoutOneline = .ok wl ∧
      (∀ i : Nat, wc.rect i = (wl.rect i).map Window.transpose) ∧
      wc.rect 0 = some ⟨1, 2, 7, 3⟩ ∧ wc.rect 1 = some ⟨1, 5, 7, 3⟩ ∧
      wc.rect 2 = some ⟨1, 8, 7, 4⟩ := by
  obtain ⟨wc, wl, hc, hl, _, ht, hi, hlast⟩ :=
    LayoutOnecolumn_transposes (sampleWorkspace 3 1 2 7 10 layoutType.layoutTile 0) 3
      (by decide) (by decide) (by decide) (by decide)
  exact ⟨wc, wl, hc, hl, ht, hi 0 (by decide), hi 1 (by decide), hlast⟩

/-- C8, counterexample: with five panes and the cursor on the last one (index 4),
`MoveCursor(2)` leaves the cursor at 0, while `(4 + 2) mod 5 = 1`. -/
theorem MoveCursor_two_from_last :
    ((sampleWorkspace 5 0 0 10 10 layoutType.layoutTile 4).MoveCursor 2).map Workspace.Cursor
        = .ok 0 ∧
      ((4 : Int) + 2) % 5 = 1 ∧
      ((sampleWorkspace 5 0 0 10 10 layoutType.layoutTile 4).MoveCursor 2).map Workspace.Cursor
        ≠ .ok (((4 : Int) + 2) % 5) := by
  refine ⟨rfl, by decide, ?_⟩
  intro h
  have h2 : (Except.ok 0 : Except GoPanic Int) = .ok (((4 : Int) + 2) % 5) := h
  injection h2 with h3
  exact absurd h3 (by decide)

/-- C8, amended: on a workspace of `n` panes with a valid cursor `c`, for every
`delta` whose sum `c + delta` fits a Go `int`, `MoveCursor(delta)` returns, changes
nothing but the cursor, and sets the cursor to `c + delta` when `0 <= c + delta < n`,
to 0 when `c + delta >= n` and to `n - 1` when `c + delta < 0`; this is
`(c + delta) mod n` whenever `-1 <= c + delta <= n`, so for `delta = 1` and
`delta = -1`. -/
theorem MoveCursor_wraps_to_ends (w : Workspace) (delta : Int)
    (h0 : 0 ≤ w.Cursor) (h1 : w.Cursor < (w.Dirs.length : Int))
    (hlo : -9223372036854775808 ≤ w.Cursor + delta)
    (hhi : w.Cursor + delta ≤ 9223372036854775807) :
    ∃ w1, w.MoveCursor delta = .ok w1 ∧
      w1.Dirs = w.Dirs ∧ w1.Layout = w.Layout ∧ w1.Window = w.Window ∧ w1.Title = w.Title ∧
      (0 ≤ w.Cursor + delta → w.Cursor + delta < (w.Dirs.length : Int) →
        w1.Cursor = w.Cursor + delta) ∧
      ((w.Dirs.length : Int) ≤ w.Cursor + delta → w1.Cursor = 0) ∧
      (w.Cursor + delta < 0 → w1.Cursor = (w.Dirs.length : Int) - 1) ∧
      (-1 ≤ w.Cursor + delta → w.Cursor + delta ≤ (w.Dirs.length : Int) →
        w1.Cursor = (w.Cursor + delta) % (w.Dirs.length : Int)) := by
  have hn : 1 ≤ w.Dirs.length := by omega
  refine ⟨_, MoveCursor_run w delta hn hlo hhi, rfl, rfl, rfl, rfl, ?_, ?_, ?_, ?_⟩
  · intro a b
    simp only
    rw [if_neg (by omega), if_neg (by omega)]
  · intro a
    simp only
    rw [if_pos a]
  · intro a
    simp only
    rw [if_neg (by omega), if_pos a]
  · intro a b
    simp only
    by_cases c1 : (w.Dirs.length : Int) ≤ w.Cursor + delta
    · rw [if_pos c1]
      have e : w.Cursor + delta = (w.Dirs.length : Int) := by omega
      rw [e, Int.emod_self]
    · rw [if_neg c1]
      by_cases c2 : w.Cursor + delta < 0
      · rw [if_pos c2]
        have e : w.Cursor + delta = -1 := by omega
        rw [e]
        rw [neg_one_emod _ (by omega)]
      · rw [if_neg c2]
        exact (Int.emod_eq_of_lt (by omega) (by omega)).symm

/-- C8, amended, at five panes with the cursor on the last one: `MoveCursor(2)`
puts the cursor on pane 0. -/
theorem MoveCursor_wraps_to_ends_witness :
    ∃ w1, (sampleWorkspace 5 0 0 10 10 layoutType.layoutTile 4).MoveCursor 2 = .ok w1 ∧
      w1.Cursor = 0 := by
  obtain ⟨w1, h, _, _, _, _, _, hz, _, _⟩ :=
    MoveCursor_wraps_to_ends (sampleWorkspace 5 0 0 10 10 layoutType.layoutTile 4) 2
      (by decide) (by decide) (by decide) (by decide)
  exact ⟨w1, h, hz (by decide)⟩

/-- C9, counterexample: with three panes and the cursor on pane 1, `MoveCursor(3)`
leaves the cursor at 0 and `MoveCursor(-3)` leaves it at 2; neither is 1. -/
theorem MoveCursor_by_len_moves :
    ((sampleWorkspace 3 0 0 10 10 layoutType.layoutTile 1).MoveCursor 3).map Workspace.Cursor
        = .ok 0 ∧
      ((sampleWorkspace 3 0 0 10 10 layoutType.layoutTile 1).MoveCursor (-3)).map
        Workspace.Cursor = .ok 2 ∧
      (sampleWorkspace 3 0 0 10 10 layoutType.layoutTile 1).Cursor = 1 ∧
      (0 : Int) ≠ 1 ∧ (2 : Int) ≠ 1 :=
  ⟨rfl, rfl, rfl, by decide, by decide⟩

/-- C9, amended: on a workspace of `n` panes (`n` below `2^62`) with a valid cursor
`c`, `MoveCursor(n)` returns with the cursor at 0 and `MoveCursor(-n)` returns with
the cursor at `n - 1`, the panes unchanged; so `MoveCursor(n)` brings the cursor
back to `c` exactly when `c = 0`, and `MoveCursor(-n)` exactly when `c = n - 1`. -/
theorem MoveCursor_full_cycle (w : Workspace)
    (h0 : 0 ≤ w.Cursor) (h1 : w.Cursor < (w.Dirs.length : Int))
    (hsz : (w.Dirs.length : Int) ≤ 4611686018427387904) :
    (∃ w1, w.MoveCursor (w.Dirs.length : Int) = .ok w1 ∧ w1.Dirs = w.Dirs ∧
      w1.Cursor = 0 ∧ (w1.Cursor = w.Cursor ↔ w.Cursor = 0)) ∧
    (∃ w2, w.MoveCursor (-(w.Dirs.length : Int)) = .ok w2 ∧ w2.Dirs = w.Dirs ∧
      w2.Cursor = (w.Dirs.length : Int) - 1 ∧
      (w2.Cursor = w.Cursor ↔ w.Cursor = (w.Dirs.length : Int) - 1)) := by
  have hn : 1 ≤ w.Dirs.length := by omega
  constructor
  · refine ⟨_, MoveCursor_run w _ hn (by omega) (by omega), rfl, ?_, ?_⟩
    · simp only
      rw [if_pos (by omega)]
    · simp only
      rw [if_pos (by omega)]
      constructor <;> intro h <;> omega
  · refine ⟨_, MoveCursor_run w _ hn (by omega) (by omega), rfl, ?_, ?_⟩
    · simp only
      rw [if_neg (by omega), if_pos (by omega)]
    · simp only
      rw [if_neg (by omega), if_pos (by omega)]
      constructor <;> intro h <;> omega

/-- C9, amended, at three panes with the cursor on pane 1. -/
theorem MoveCursor_full_cycle_witness :
    (∃ w1, (sampleWorkspace 3 0 0 10 10 layoutType.layoutTile 1).MoveCursor 3 = .ok w1 ∧
      w1.Cursor = 0) ∧
    (∃ w2, (sampleWorkspace 3 0 0 10 10 layoutType.layoutTile 1).MoveCursor (-3) = .ok w2 ∧
      w2.Cursor = 2) := by
  obtain ⟨⟨w1, a1, _, c1, _⟩, ⟨w2, a2, _, c2, _⟩⟩ :=
    MoveCursor_full_cycle (sampleWorkspace 3 0 0 10 10 layoutType.layoutTile 1)
      (by decide) (by decide) (by decide)
  exact ⟨⟨w1, a1, c1⟩, ⟨w2, a2, c2⟩⟩

/-- C10: on a workspace of `n` panes (`n` below `2^62`) with a valid cursor, one
the program can be in (in mode `TileTop` it has two panes or more),
`SwapNextDir` followed by `SwapPrevDir` returns, and the result has the original
pane sequence, every index holding the pane it held before, and the original
cursor. -/
theorem SwapNextDir_SwapPrevDir (w : Workspace)
    (h0 : 0 ≤ w.Cursor) (h1 : w.Cursor < (w.Dirs.length : Int))
    (hsz : (w.Dirs.length : Int) ≤ 4611686018427387904) (hT : w.TileTopHasTwo) :
    ∃ w2, (w.SwapNextDir >>= Workspace.SwapPrevDir) = .ok w2 ∧
      w2.panes = w.panes ∧ w2.Cursor = w.Cursor ∧ w2.Layout = w.Layout ∧
      w2.Window = w.Window := by
  obtain ⟨c, hc⟩ : ∃ c : Nat, w.Cursor = (c : Int) := ⟨w.Cursor.toNat, by omega⟩
  have hcn : c < w.Dirs.length := by omega
  have hsafe : ¬ (w.Layout = layoutType.layoutTileTop ∧ w.Dirs.length = 1) := by
    intro hb
    have := hT hb.1
    omega
  obtain ⟨w1, hr1, hcur1, hlay1, hwin1, hlen1, hp1⟩ := SwapNextDir_ok w c hc hcn hsz hsafe
  have hnxlt : (if c + 1 < w.Dirs.length then c + 1 else 0) < w.Dirs.length := by
    split_ifs <;> omega
  have hpv : ∀ nx : Nat, nx = (if c + 1 < w.Dirs.length then c + 1 else 0) →
      (if nx = 0 then w.Dirs.length - 1 else nx - 1) = c := by
    intro nx hnx
    by_cases a : c + 1 < w.Dirs.length
    · rw [if_pos a] at hnx
      rw [if_neg (by omega)]
      omega
    · rw [if_neg a] at hnx
      rw [if_pos hnx]
      omega
  generalize (if c + 1 < w.Dirs.length then c + 1 else 0) = nx at hcur1 hp1 hnxlt hpv
  have hpv2 := hpv nx rfl
  obtain ⟨w2, hr2, hcur2, hlay2, hwin2, hlen2, hp2⟩ :=
    SwapPrevDir_ok w1 nx hcur1 (by rw [hlen1]; exact hnxlt) (by rw [hlen1]; exact hsz)
      (by rw [hlay1, hlen1]; exact hsafe)
  rw [hlen1, hpv2] at hcur2 hp2
  refine ⟨w2, ?_, ?_, ?_, ?_, ?_⟩
  · rw [hr1, bind_ok, hr2]
  · apply List.ext_getElem?
    intro k
    rw [hp2 k, hp1 c, hp1 nx, hp1 k]
    by_cases a1 : k = c
    · by_cases a2 : c = nx
      · simp [a1, a2]
      · simp [a1, a2]
    · by_cases a2 : k = nx
      · by_cases a3 : c = nx
        · exact absurd (a2.trans a3.symm) a1
        · have a4 : ¬ nx = c := fun h => a3 h.symm
          simp [a2, a3, a4]
      · simp [a1, a2]
  · rw [hcur2, hc]
  · rw [hlay2, hlay1]
  · rw [hwin2, hwin1]

/-- C10 at three panes under `Tile` with the cursor on the last pane, and at two
panes under `TileTop`: the two calls restore the pane sequence and the cursor. -/
theorem SwapNextDir_SwapPrevDir_witness :
    (∃ w2, ((sampleWorkspace 3 0 0 10 10 layoutType.layoutTile 2).SwapNextDir >>=
        Workspace.SwapPrevDir) = .ok w2 ∧
      w2.panes = [(0, "/"), (1, "/"), (2, "/")] ∧ w2.Cursor = 2) ∧
    (∃ w2, ((sampleWorkspace 2 0 0 10 10 layoutType.layoutTileTop 1).SwapNextDir >>=
        Workspace.SwapPrevDir) = .ok w2 ∧
      w2.panes = [(0, "/"), (1, "/")] ∧ w2.Cursor = 1) := by
  obtain ⟨w2, hr, hp, hc, _, _⟩ := SwapNextDir_SwapPrevDir
    (sampleWorkspace 3 0 0 10 10 layoutType.layoutTile 2)
    (by decide) (by decide) (by decide) (by decide)
  obtain ⟨w3, hr3, hp3, hc3, _, _⟩ := SwapNextDir_SwapPrevDir
    (sampleWorkspace 2 0 0 10 10 layoutType.layoutTileTop 1)
    (by decide) (by decide) (by decide) (by decide)
  exact ⟨⟨w2, hr, hp, hc⟩, ⟨w3, hr3, hp3, hc3⟩⟩

/-- C11: on a workspace of `n` panes (`n` below `2^62`) with a valid cursor `c`,
one the program can be in (in mode `TileTop` it has two panes or more),
`SwapNextDir` returns the original pane sequence with the entries at `c` and
`(c + 1) mod n` exchanged and the others unchanged, and the cursor at
`(c + 1) mod n`, so that the focused pane is the one focused before;
`SwapPrevDir` does the same with `(c - 1 + n) mod n`. -/
theorem Swap_exchanges (w : Workspace) (c : Nat) (hc : w.Cursor = (c : Int))
    (hcn : c < w.Dirs.length) (hsz : (w.Dirs.length : Int) ≤ 4611686018427387904)
    (hT : w.TileTopHasTwo) :
    (∃ w1, w.SwapNextDir = .ok w1 ∧
      w1.Cursor = (((c + 1) % w.Dirs.length : Nat) : Int) ∧
      w1.Dirs.length = w.Dirs.length ∧
      (∀ k : Nat, w1.panes[k]? =
        if k = (c + 1) % w.Dirs.length then w.panes[c]?
        else if k = c then w.panes[(c + 1) % w.Dirs.length]?
        else w.panes[k]?) ∧
      w1.panes[(c + 1) % w.Dirs.length]? = w.panes[c]?) ∧
    (∃ w2, w.SwapPrevDir = .ok w2 ∧
      w2.Cursor = (((c + w.Dirs.length - 1) % w.Dirs.length : Nat) : Int) ∧
      w2.Dirs.length = w.Dirs.length ∧
      (∀ k : Nat, w2.panes[k]? =
        if k = (c + w.Dirs.length - 1) % w.Dirs.length then w.panes[c]?
        else if k = c then w.panes[(c + w.Dirs.length - 1) % w.Dirs.length]?
        else w.panes[k]?) ∧
      w2.panes[(c + w.Dirs.length - 1) % w.Dirs.length]? = w.panes[c]?) := by
  have hsafe : ¬ (w.Layout = layoutType.layoutTileTop ∧ w.Dirs.length = 1) := by
    intro hb
    have := hT hb.1
    omega
  rw [succ_mod_eq c _ hcn, pred_mod_eq c _ hcn]
  obtain ⟨w1, hr1, hcur1, _, _, hlen1, hp1⟩ := SwapNextDir_ok w c hc hcn hsz hsafe
  obtain ⟨w2, hr2, hcur2, _, _, hlen2, hp2⟩ := SwapPrevDir_ok w c hc hcn hsz hsafe
  refine ⟨⟨w1, hr1, hcur1, hlen1, hp1, ?_⟩, ⟨w2, hr2, hcur2, hlen2, hp2, ?_⟩⟩
  · rw [hp1, if_pos rfl]
  · rw [hp2, if_pos rfl]

/-- C11 at three panes under `Tile` with the cursor on the last pane: `SwapNextDir`
exchanges panes 2 and 0 and moves the cursor to 0, `SwapPrevDir` exchanges panes
2 and 1 and moves the cursor to 1. -/
theorem Swap_exchanges_witness :
    (∃ w1, (sampleWorkspace 3 0 0 10 10 layoutType.layoutTile 2).SwapNextDir = .ok w1 ∧
      w1.Cursor = 0 ∧ w1.panes[0]? = some (2, "/")) ∧
    (∃ w2, (sampleWorkspace 3 0 0 10 10 layoutType.layoutTile 2).SwapPrevDir = .ok w2 ∧
      w2.Cursor = 1 ∧ w2.panes[1]? = some (2, "/")) := by
  obtain ⟨⟨w1, hr1, hc1, _, _, hf1⟩, ⟨w2, hr2, hc2, _, _, hf2⟩⟩ :=
    Swap_exchanges (sampleWorkspace 3 0 0 10 10 layoutType.layoutTile 2) 2
      rfl (by decide) (by decide) (by decide)
  exact ⟨⟨w1, hr1, hc1, hf1⟩, ⟨w2, hr2, hc2, hf2⟩⟩

/-- C12: on a workspace with fewer than two panes `CloseDir` returns without a
panic and changes nothing: the result is the workspace it was called on, with
its pane sequence, cursor, layout mode and pane rectangles. -/
theorem CloseDir_fewer_than_two (w : Workspace) (h : w.Dirs.length < 2) :
    w.CloseDir = .ok w := by
  have c : w.len < 2 := by
    unfold Workspace.len
    omega
  unfold Workspace.CloseDir
  rw [if_pos c]

/-- C12 at one pane under `TileTop` and at no pane at all. -/
theorem CloseDir_fewer_than_two_witness :
    (sampleWorkspace 1 0 0 10 10 layoutType.layoutTileTop 0).CloseDir
        = .ok (sampleWorkspace 1 0 0 10 10 layoutType.layoutTileTop 0) ∧
      (sampleWorkspace 0 0 0 10 10 layoutType.layoutTile 0).CloseDir
        = .ok (sampleWorkspace 0 0 0 10 10 layoutType.layoutTile 0) :=
  ⟨CloseDir_fewer_than_two _ (by decide), CloseDir_fewer_than_two _ (by decide)⟩

/-- C13: `CloseDir` on a workspace of `n >= 2` panes with a valid cursor `c`.  When
the layout mode is `TileTop` and `n = 2`, the re-layout of the one pane left
panics (the division by zero of `LayoutTileTop`).  On every other such workspace
`CloseDir` returns, the pane sequence is the original one with exactly the entry
at index `c` removed, the others keeping their order, and the cursor is `c` when
`c <= n - 2` and `n - 2` when `c = n - 1`. -/
theorem CloseDir_removes (w : Workspace) (c : Nat) (hc : w.Cursor = (c : Int))
    (hcn : c < w.Dirs.length) (h2 : 2 ≤ w.Dirs.length) :
    (w.Layout = layoutType.layoutTileTop ∧ w.Dirs.length = 2 →
      w.CloseDir = .error GoPanic.divideByZero) ∧
    (¬ (w.Layout = layoutType.layoutTileTop ∧ w.Dirs.length = 2) →
      ∃ w1, w.CloseDir = .ok w1 ∧ w1.panes = w.panes.eraseIdx c ∧
        w1.Dirs.length = w.Dirs.length - 1 ∧
        (∀ k : Nat, w1.panes[k]? = if k < c then w.panes[k]? else w.panes[k + 1]?) ∧
        w1.Cursor = (if c + 1 = w.Dirs.length then (w.Dirs.length : Int) - 2 else (c : Int)) ∧
        w1.Layout = w.Layout ∧ w1.Window = w.Window) := by
  have hl := length_eraseIdx_of_lt w.Dirs c hcn
  constructor
  · rintro ⟨hL, hlen⟩
    rw [CloseDir_struct w c hc hcn h2]
    exact allocate_one_TileTop _ hL (by simp only; rw [hl]; omega)
  · intro hsafe
    obtain ⟨w1, ha, hp, hcur, hlay, hwin, _⟩ := allocate_ok
      { w with Dirs := w.Dirs.eraseIdx c,
               Cursor := if c + 1 = w.Dirs.length then (w.Dirs.length : Int) - 2 else (c : Int) }
      (by simp only; rw [hl]; omega)
      (by
        simp only
        rw [hl]
        intro hb
        exact hsafe ⟨hb.1, by omega⟩)
    have hp2 : w1.panes = w.panes.eraseIdx c := by
      rw [hp]
      exact panes_eraseIdx w.Dirs c
    refine ⟨w1, ?_, hp2, ?_, ?_, hcur, hlay, hwin⟩
    · rw [CloseDir_struct w c hc hcn h2]
      exact ha
    · rw [length_of_panes _ _ hp]
      exact hl
    · intro k
      rw [hp2, List.getElem?_eraseIdx]

/-- C13 at two panes under `TileTop`, where `CloseDir` panics, and at three panes
under `Tile` with the cursor on the last pane, where pane 2 goes and the cursor
moves to 1. -/
theorem CloseDir_removes_witness :
    (sampleWorkspace 2 0 0 10 10 layoutType.layoutTileTop 0).CloseDir
        = .error GoPanic.divideByZero ∧
      ∃ w1, (sampleWorkspace 3 0 0 10 10 layoutType.layoutTile 2).CloseDir = .ok w1 ∧
        w1.panes = [(0, "/"), (1, "/")] ∧ w1.Cursor = 1 := by
  have hbad := (CloseDir_removes (sampleWorkspace 2 0 0 10 10 layoutType.layoutTileTop 0) 0
    rfl (by decide) (by decide)).1 ⟨rfl, rfl⟩
  obtain ⟨w1, hr, hp, _, _, hc, _, _⟩ :=
    (CloseDir_removes (sampleWorkspace 3 0 0 10 10 layoutType.layoutTile 2) 2
      rfl (by decide) (by decide)).2 (by decide)
  exact ⟨hbad, w1, hr, hp, hc⟩

/-- C14: on a workspace of `n >= 0` panes with any cursor, one the program can be
in (in mode `TileTop` it has two panes or more), `CreateDir` returns, once
`os.UserHomeDir` has returned `path`, with `n + 1` panes, the newly built pane (at
`path`) at index 0, the pane previously at index `i` at index `i + 1`, and the
cursor at 0. -/
theorem CreateDir_prepends (w : Workspace) (path : String) (ptr : Nat)
    (hT : w.TileTopHasTwo) :
    ∃ w1, w.CreateDir (some path) ptr = .ok w1 ∧
      w1.panes = (ptr, path) :: w.panes ∧
      w1.Dirs.length = w.Dirs.length + 1 ∧
      w1.panes[0]? = some (ptr, path) ∧
      (∀ i : Nat, i < w.Dirs.length → w1.panes[i + 1]? = w.panes[i]?) ∧
      w1.Cursor = 0 ∧ w1.Layout = w.Layout ∧ w1.Window = w.Window := by
  obtain ⟨w1, ha, hp, hcur, hlay, hwin, _⟩ := allocate_ok
    { w with Dirs := (NewDirectory ptr 0 0 0 0).Chdir path :: w.Dirs, Cursor := 0 }
    (by simp)
    (by
      simp only [List.length_cons]
      intro hb
      have := hT hb.1
      omega)
  have hp2 : w1.panes = (ptr, path) :: w.panes := by
    rw [hp]
    rfl
  refine ⟨w1, ?_, hp2, ?_, ?_, ?_, hcur, hlay, hwin⟩
  · rw [CreateDir_struct]
    exact ha
  · rw [length_of_panes _ _ hp]
    rfl
  · rw [hp2]
    simp
  · intro i _
    rw [hp2]
    simp

/-- C14 on the empty workspace `NewWorkspace` builds and at two panes under `Tile`
with the cursor on the last pane. -/
theorem CreateDir_prepends_witness :
    (∃ w1, (NewWorkspace 0 0 10 10 "1").CreateDir (some "/home/u") 7 = .ok w1 ∧
      w1.panes = [(7, "/home/u")] ∧ w1.Cursor = 0) ∧
    (∃ w1, (sampleWorkspace 2 0 0 10 10 layoutType.layoutTile 1).CreateDir (some "/home/u") 7
        = .ok w1 ∧
      w1.panes = [(7, "/home/u"), (0, "/"), (1, "/")] ∧ w1.Cursor = 0) := by
  obtain ⟨w0, hr0, hp0, _, _, _, hc0, _, _⟩ :=
    CreateDir_prepends (NewWorkspace 0 0 10 10 "1") "/home/u" 7 (by decide)
  obtain ⟨w1, hr, hp, _, _, _, hc, _, _⟩ :=
    CreateDir_prepends (sampleWorkspace 2 0 0 10 10 layoutType.layoutTile 1)
      "/home/u" 7 (by decide)
  exact ⟨⟨w0, hr0, hp0, hc0⟩, ⟨w1, hr, hp, hc⟩⟩

/-- C15: on a workspace of `n >= 1` panes `SetCursor(x)` returns for every integer
`x`, sets the cursor to `max(0, min(x, n - 1))` and changes nothing else, so the
pane sequence is the one before the call. -/
theorem SetCursor_clamps (w : Workspace) (x : Int) (hn : 1 ≤ w.Dirs.length) :
    ∃ w1, w.SetCursor x = .ok w1 ∧
      w1.Cursor = max 0 (min x ((w.Dirs.length : Int) - 1)) ∧
      w1.Dirs = w.Dirs ∧ w1.Layout = w.Layout ∧ w1.Window = w.Window ∧
      w1.Title = w.Title := by
  refine ⟨_, SetCursor_run w x hn, ?_, rfl, rfl, rfl, rfl⟩
  simp only
  by_cases c1 : x < 0
  · rw [if_pos c1]
    omega
  · rw [if_neg c1]
    by_cases c2 : x > (w.Dirs.length : Int) - 1
    · rw [if_pos c2]
      omega
    · rw [if_neg c2]
      omega

/-- C15 at three panes: `SetCursor(7)` gives 2, `SetCursor(-4)` gives 0 and
`SetCursor(1)` gives 1. -/
theorem SetCursor_clamps_witness :
    (∃ w1, (sampleWorkspace 3 0 0 10 10 layoutType.layoutTile 0).SetCursor 7 = .ok w1 ∧
      w1.Cursor = 2) ∧
    (∃ w1, (sampleWorkspace 3 0 0 10 10 layoutType.layoutTile 2).SetCursor (-4) = .ok w1 ∧
      w1.Cursor = 0) ∧
    (∃ w1, (sampleWorkspace 3 0 0 10 10 layoutType.layoutTile 0).SetCursor 1 = .ok w1 ∧
      w1.Cursor = 1) := by
  obtain ⟨a, ha, hca, _⟩ :=
    SetCursor_clamps (sampleWorkspace 3 0 0 10 10 layoutType.layoutTile 0) 7 (by decide)
  obtain ⟨b, hb, hcb, _⟩ :=
    SetCursor_clamps (sampleWorkspace 3 0 0 10 10 layoutType.layoutTile 2) (-4) (by decide)
  obtain ⟨c, hc, hcc, _⟩ :=
    SetCursor_clamps (sampleWorkspace 3 0 0 10 10 layoutType.layoutTile 0) 1 (by decide)
  exact ⟨⟨a, ha, hca⟩, ⟨b, hb, hcb⟩, ⟨c, hc, hcc⟩⟩

/-- C16: the predicate `CursorValid`, the workspace has at least one pane and
`0 <= cursor < len(panes)`, is an invariant of the pane-management methods.  From
a workspace where it holds, every workspace returned by `CreateDir`, `CloseDir`,
`MoveCursor(delta)`, `SetCursor(x)`, `SwapNextDir` or `SwapPrevDir` satisfies it,
for every `delta` and `x`.  The calls do return: `MoveCursor`, `SetCursor` and
`CreateDir` (given a home directory) always, `CloseDir` unless the layout mode
is `TileTop` with two panes, and the swaps unless it is `TileTop` with one pane,
the cases where the re-layout of a single pane under `TileTop` panics. -/
theorem CursorValid_preserved (w : Workspace) (hv : w.CursorValid) :
    (∀ home ptr w1, w.CreateDir home ptr = .ok w1 → w1.CursorValid) ∧
    (∀ path ptr, ∃ w1, w.CreateDir (some path) ptr = .ok w1) ∧
    (∀ w1, w.CloseDir = .ok w1 → w1.CursorValid) ∧
    (¬ (w.Layout = layoutType.layoutTileTop ∧ w.Dirs.length = 2) →
      ∃ w1, w.CloseDir = .ok w1) ∧
    (∀ delta, ∃ w1, w.MoveCursor delta = .ok w1 ∧ w1.CursorValid) ∧
    (∀ x, ∃ w1, w.SetCursor x = .ok w1 ∧ w1.CursorValid) ∧
    (∀ w1, w.SwapNextDir = .ok w1 → w1.CursorValid) ∧
    (∀ w1, w.SwapPrevDir = .ok w1 → w1.CursorValid) ∧
    (¬ (w.Layout = layoutType.layoutTileTop ∧ w.Dirs.length = 1) →
      (∃ w1, w.SwapNextDir = .ok w1) ∧ (∃ w1, w.SwapPrevDir = .ok w1)) := by
  obtain ⟨hn, h0, h1⟩ := hv
  obtain ⟨c, hc⟩ : ∃ c : Nat, w.Cursor = (c : Int) := ⟨w.Cursor.toNat, by omega⟩
  have hcn : c < w.Dirs.length := by omega
  have hcreate : ∀ path ptr, Workspace.CursorValid
      { w with Dirs := (NewDirectory ptr 0 0 0 0).Chdir path :: w.Dirs, Cursor := 0 } := by
    intro path ptr
    refine ⟨by simp, by simp, ?_⟩
    simp only [List.length_cons]
    omega
  have hclose : 2 ≤ w.Dirs.length → Workspace.CursorValid
      { w with Dirs := w.Dirs.eraseIdx c,
               Cursor := if c + 1 = w.Dirs.length then (w.Dirs.length : Int) - 2
                 else (c : Int) } := by
    intro h2
    have hl := length_eraseIdx_of_lt w.Dirs c hcn
    refine ⟨by simp only; omega, ?_, ?_⟩
    · simp only
      split_ifs <;> omega
    · simp only
      rw [hl]
      split_ifs <;> omega
  obtain ⟨dsn, cn, hln, hcn0, hcn1, hnext⟩ := SwapNextDir_struct w h0 h1
  obtain ⟨dsp, cp, hlp, hcp0, hcp1, hprev⟩ := SwapPrevDir_struct w h0 h1
  have hvn : Workspace.CursorValid { w with Dirs := dsn, Cursor := cn } :=
    ⟨by simp only; omega, hcn0, by simp only; omega⟩
  have hvp : Workspace.CursorValid { w with Dirs := dsp, Cursor := cp } :=
    ⟨by simp only; omega, hcp0, by simp only; omega⟩
  refine ⟨?_, ?_, ?_, ?_, ?_, ?_, ?_, ?_, ?_⟩
  · intro home ptr w1 h
    cases home with
    | none => cases h
    | some path =>
      rw [CreateDir_struct] at h
      exact CursorValid_of_allocate _ w1 (hcreate path ptr) h
  · intro path ptr
    obtain ⟨w1, ha, _⟩ := allocate_ok
      { w with Dirs := (NewDirectory ptr 0 0 0 0).Chdir path :: w.Dirs, Cursor := 0 }
      (by simp)
      (by
        simp only [List.length_cons]
        intro hb
        omega)
    exact ⟨w1, by rw [CreateDir_struct]; exact ha⟩
  · intro w1 h
    by_cases h2 : 2 ≤ w.Dirs.length
    · rw [CloseDir_struct w c hc hcn h2] at h
      exact CursorValid_of_allocate _ w1 (hclose h2) h
    · rw [CloseDir_small w (by omega)] at h
      cases h
      exact ⟨hn, h0, h1⟩
  · intro hsafe
    by_cases h2 : 2 ≤ w.Dirs.length
    · have hl := length_eraseIdx_of_lt w.Dirs c hcn
      obtain ⟨w1, ha, _⟩ := allocate_ok
        { w with Dirs := w.Dirs.eraseIdx c,
                 Cursor := if c + 1 = w.Dirs.length then (w.Dirs.length : Int) - 2
                   else (c : Int) }
        (by simp only; rw [hl]; omega)
        (by
          simp only
          rw [hl]
          intro hb
          exact hsafe ⟨hb.1, by omega⟩)
      exact ⟨w1, by rw [CloseDir_struct w c hc hcn h2]; exact ha⟩
    · exact ⟨w, CloseDir_small w (by omega)⟩
  · intro delta
    obtain ⟨c1, hm, hc0, hc1⟩ := MoveCursor_valid w delta hn
    exact ⟨_, hm, hn, hc0, hc1⟩
  · intro x
    refine ⟨_, SetCursor_run w x hn, hn, ?_, ?_⟩
    · simp only
      split_ifs <;> omega
    · simp only
      split_ifs <;> omega
  · intro w1 h
    rw [hnext] at h
    exact CursorValid_of_allocate _ w1 hvn h
  · intro w1 h
    rw [hprev] at h
    exact CursorValid_of_allocate _ w1 hvp h
  · intro hsafe
    obtain ⟨w1, ha, _⟩ := allocate_ok { w with Dirs := dsn, Cursor := cn }
      (by simp only; omega) (by simp only; rw [hln]; exact hsafe)
    obtain ⟨w2, hb, _⟩ := allocate_ok { w with Dirs := dsp, Cursor := cp }
      (by simp only; omega) (by simp only; rw [hlp]; exact hsafe)
    exact ⟨⟨w1, by rw [hnext]; exact ha⟩, ⟨w2, by rw [hprev]; exact hb⟩⟩

/-- C16 at three panes under `Tile` with the cursor on the last pane: the cursor
is valid before, and after `MoveCursor(5)`, `SetCursor(-3)`, `CloseDir` and
`SwapNextDir`. -/
theorem CursorValid_preserved_witness :
    (sampleWorkspace 3 0 0 10 10 layoutType.layoutTile 2).CursorValid ∧
      (∃ w1, (sampleWorkspace 3 0 0 10 10 layoutType.layoutTile 2).MoveCursor 5 = .ok w1 ∧
        w1.CursorValid) ∧
      (∃ w1, (sampleWorkspace 3 0 0 10 10 layoutType.layoutTile 2).SetCursor (-3) = .ok w1 ∧
        w1.CursorValid) ∧
      (∃ w1, (sampleWorkspace 3 0 0 10 10 layoutType.layoutTile 2).CloseDir = .ok w1 ∧
        w1.CursorValid) ∧
      (∃ w1, (sampleWorkspace 3 0 0 10 10 layoutType.layoutTile 2).SwapNextDir = .ok w1 ∧
        w1.CursorValid) := by
  have hv : (sampleWorkspace 3 0 0 10 10 layoutType.layoutTile 2).CursorValid := by decide
  obtain ⟨_, _, hclose, hcloseT, hmove, hset, hnext, _, hswapT⟩ :=
    CursorValid_preserved (sampleWorkspace 3 0 0 10 10 layoutType.layoutTile 2) hv
  obtain ⟨wc, hc⟩ := hcloseT (by decide)
  obtain ⟨⟨wn, hn⟩, _⟩ := hswapT (by decide)
  exact ⟨hv, hmove 5, hset (-3), ⟨wc, hc, hclose wc hc⟩, ⟨wn, hn, hnext wn hn⟩⟩

/-- C17: the calls of `draw` made by `Workspace.Draw` on a workspace of `n` panes
with a valid cursor `c`.  In `Fullscreen` mode there is one call, on pane `c`
with `focused = true`.  In every other mode the calls are first one call with
`focused = false` on each pane of index other than `c`, in increasing index
order, then last the call on pane `c` with `focused = true`. -/
theorem Draw_calls (w : Workspace) (c : Nat) (hc : w.Cursor = (c : Int))
    (hcn : c < w.Dirs.length) :
    ∃ d, w.Dirs[c]? = some d ∧
      (w.Layout = layoutType.layoutFullscreen → w.Draw = .ok [⟨(c : Int), d, true⟩]) ∧
      (w.Layout ≠ layoutType.layoutFullscreen →
        ∃ others, w.Draw = .ok (others ++ [⟨(c : Int), d, true⟩]) ∧
          others.map DrawCall.index =
            ((List.range w.Dirs.length).filter (fun i => decide (i ≠ c))).map Int.ofNat ∧
          ∀ call ∈ others, call.focused = false ∧
            w.Dirs[call.index.toNat]? = some call.pane) := by
  obtain ⟨d, hd⟩ := getElem?_of_lt w.Dirs c hcn
  have hdir : w.Dir = .ok d := by
    simp [Workspace.Dir, indexDir, hc, hd]
  refine ⟨d, hd, ?_, ?_⟩
  · intro hL
    simp [Workspace.Draw, hL, hdir, hc]
  · intro hL
    refine ⟨drawOthers (c : Int) w.Dirs 0, ?_, ?_, ?_⟩
    · cases hL2 : w.Layout <;> first
        | exact absurd hL2 hL
        | simp [Workspace.Draw, hL2, hdir, hc]
    · rw [drawOthers_index, List.range_eq_range']
    · intro call hcall
      obtain ⟨hf, _, j, hj, hp⟩ := drawOthers_calls (c : Int) w.Dirs 0 call hcall
      refine ⟨hf, ?_⟩
      rw [hj]
      simpa using hp

/-- C17 at three panes with the cursor on pane 1: under `Tile` the calls are pane
0 and pane 2 unfocused, then pane 1 focused; under `Fullscreen` the one call is
pane 1 focused. -/
theorem Draw_calls_witness :
    ((sampleWorkspace 3 0 0 10 10 layoutType.layoutTile 1).Draw).map
        (fun calls => calls.map (fun call => (call.index, call.pane.ptr, call.focused)))
        = .ok [(0, 0, false), (2, 2, false), (1, 1, true)] ∧
      (∃ d, (sampleWorkspace 3 0 0 10 10 layoutType.layoutFullscreen 1).Draw
        = .ok [⟨1, d, true⟩] ∧ d.ptr = 1) := by
  obtain ⟨d, hd, hfull, _⟩ :=
    Draw_calls (sampleWorkspace 3 0 0 10 10 layoutType.layoutFullscreen 1) 1 rfl (by decide)
  have hd2 : d = ⟨1, "/", ⟨0, 0, 0, 0⟩⟩ := by
    have h : (sampleWorkspace 3 0 0 10 10 layoutType.layoutFullscreen 1).Dirs[1]?
        = some ⟨1, "/", ⟨0, 0, 0, 0⟩⟩ := rfl
    rw [h] at hd
    exact (Option.some.inj hd).symm
  exact ⟨rfl, d, hfull rfl, by rw [hd2]⟩

/-- C18: for every `(x, y, w, h)` with `h` and `h - 4` in the range of `int`, the
call `Goful.Resize(x, y, w, h)` passes the workspace stack the rectangle
`(x, y, w, h - 2)` when the progress indicator is finished and `(x, y, w, h - 4)`
while it is active, and passes the overlay widget, when there is one, the same
rectangle; without an overlay no such call is made. -/
theorem Resize_forwards (g : Goful) (progressIsFinished : Bool) (x y w h : Int)
    (hlo : -9223372036854775804 ≤ h) (hhi : h ≤ 9223372036854775807) :
    (g.Resize progressIsFinished x y w h).filer
        = ⟨x, y, w, if progressIsFinished then h - 2 else h - 4⟩ ∧
      (g.Resize true x y w h).filer = ⟨x, y, w, h - 2⟩ ∧
      (g.Resize false x y w h).filer = ⟨x, y, w, h - 4⟩ ∧
      (g.Resize progressIsFinished x y w h).overlay
        = g.next.map (fun wid => (wid, (g.Resize progressIsFinished x y w h).filer)) := by
  have e2 : goSub h 2 = h - 2 := goSub_of_fits _ _ (by omega) (by omega)
  have e0 : goSub (h - 2) 0 = h - 2 := by
    rw [goSub_of_fits _ _ (by omega) (by omega)]
    ring
  have e4 : goSub (h - 2) 2 = h - 4 := by
    rw [goSub_of_fits _ _ (by omega) (by omega)]
    ring
  have ht : (g.Resize true x y w h).filer = ⟨x, y, w, h - 2⟩ := by
    simp [Goful.Resize, e2, e0]
  have hf : (g.Resize false x y w h).filer = ⟨x, y, w, h - 4⟩ := by
    simp [Goful.Resize, e2, e4]
  refine ⟨?_, ht, hf, ?_⟩
  · cases progressIsFinished
    · rw [hf]
      simp
    · rw [ht]
      simp
  · cases hnext : g.next <;> simp [Goful.Resize, Goful.Next, hnext]

/-- C18 on a 80 x 24 terminal with an overlay: the workspace stack and the overlay
get height 22 when the progress indicator is finished and height 20 while it is
active. -/
theorem Resize_forwards_witness :
    (Goful.Resize ⟨some 4, false⟩ true 0 0 80 24).filer = ⟨0, 0, 80, 22⟩ ∧
      (Goful.Resize ⟨some 4, false⟩ false 0 0 80 24).filer = ⟨0, 0, 80, 20⟩ ∧
      (Goful.Resize ⟨some 4, false⟩ false 0 0 80 24).overlay = some (4, ⟨0, 0, 80, 20⟩) := by
  obtain ⟨_, ht, hf, ho⟩ :=
    Resize_forwards ⟨some 4, false⟩ false 0 0 80 24 (by decide) (by decide)
  refine ⟨ht, hf, ?_⟩
  rw [ho, hf]
  rfl

/-- C20: on a workspace of `n` panes (`n` a Go `int`) with a valid cursor,
`MoveCursor(1)` returns with the cursor at the value `nextIndex()` had before the
call and `MoveCursor(-1)` with the cursor at the value `prevIndex()` had; `n`
calls of `MoveCursor(1)` in succession, and likewise `n` calls of
`MoveCursor(-1)`, return the workspace they started from, cursor included. -/
theorem MoveCursor_unit_steps (w : Workspace)
    (h0 : 0 ≤ w.Cursor) (h1 : w.Cursor < (w.Dirs.length : Int))
    (hsz : (w.Dirs.length : Int) ≤ 9223372036854775807) :
    (∃ w1, w.MoveCursor 1 = .ok w1 ∧ w1.Cursor = w.nextIndex ∧ w1.Dirs = w.Dirs) ∧
    (∃ w2, w.MoveCursor (-1) = .ok w2 ∧ w2.Cursor = w.prevIndex ∧ w2.Dirs = w.Dirs) ∧
    w.MoveCursorTimes 1 w.Dirs.length = .ok w ∧
    w.MoveCursorTimes (-1) w.Dirs.length = .ok w := by
  obtain ⟨c, hc⟩ : ∃ c : Nat, w.Cursor = (c : Int) := ⟨w.Cursor.toNat, by omega⟩
  have hcn : c < w.Dirs.length := by omega
  refine ⟨⟨_, MoveCursor_run w 1 (by omega) (by omega) (by omega), ?_, rfl⟩,
    ⟨_, MoveCursor_run w (-1) (by omega) (by omega) (by omega), ?_, rfl⟩, ?_, ?_⟩
  · unfold Workspace.nextIndex Workspace.len
    simp only
    split_ifs <;> omega
  · unfold Workspace.prevIndex Workspace.len
    simp only
    split_ifs <;> omega
  · rw [MoveCursorTimes_mod 1 1 w.Dirs.length (MoveCursor_one_step _ hsz)
      w.Dirs.length w c rfl hc hcn]
    have e : (c + 1 * w.Dirs.length) % w.Dirs.length = c := by
      rw [Nat.add_mul_mod_self_right]
      exact Nat.mod_eq_of_lt hcn
    rw [e, ← hc, Workspace.eta_cursor]
  · rw [MoveCursorTimes_mod (-1) (w.Dirs.length - 1) w.Dirs.length
      (MoveCursor_back_step _ hsz) w.Dirs.length w c rfl hc hcn]
    have e : (c + (w.Dirs.length - 1) * w.Dirs.length) % w.Dirs.length = c := by
      rw [Nat.add_mul_mod_self_right]
      exact Nat.mod_eq_of_lt hcn
    rw [e, ← hc, Workspace.eta_cursor]

/-- C20 at four panes with the cursor on the last one: one step forward wraps to
0, one step back gives 2, and four steps either way come back to 3. -/
theorem MoveCursor_unit_steps_witness :
    (∃ w1, (sampleWorkspace 4 0 0 10 10 layoutType.layoutTile 3).MoveCursor 1 = .ok w1 ∧
      w1.Cursor = 0) ∧
    (∃ w2, (sampleWorkspace 4 0 0 10 10 layoutType.layoutTile 3).MoveCursor (-1) = .ok w2 ∧
      w2.Cursor = 2) ∧
    (sampleWorkspace 4 0 0 10 10 layoutType.layoutTile 3).MoveCursorTimes 1 4
      = .ok (sampleWorkspace 4 0 0 10 10 layoutType.layoutTile 3) ∧
    (sampleWorkspace 4 0 0 10 10 layoutType.layoutTile 3).MoveCursorTimes (-1) 4
      = .ok (sampleWorkspace 4 0 0 10 10 layoutType.layoutTile 3) := by
  obtain ⟨⟨w1, a1, c1, _⟩, ⟨w2, a2, c2, _⟩, t1, t2⟩ :=
    MoveCursor_unit_steps (sampleWorkspace 4 0 0 10 10 layoutType.layoutTile 3)
      (by decide) (by decide) (by decide)
  exact ⟨⟨w1, a1, c1⟩, ⟨w2, a2, c2⟩, t1, t2⟩

/-- Outside the range of `int` the coordinates wrap around as they do in Go: two
panes under `Tile` in a 10 x 10 rectangle at `x` the largest `int` put pane 1 at
`x = -9223372036854775804`, and `Goful.Resize` with `h` one above the smallest
`int`, while the progress indicator is active, passes on the height
`9223372036854775805`. -/
theorem coordinates_wrap :
    ((sampleWorkspace 2 9223372036854775807 0 10 10 layoutType.layoutTile 0).LayoutTile).map
        Workspace.rects
        = .ok [⟨9223372036854775807, 0, 5, 10⟩, ⟨-9223372036854775804, 0, 5, 10⟩] ∧
      (Goful.Resize ⟨none, false⟩ false 0 0 80 (-9223372036854775807)).filer
        = ⟨0, 0, 80, 9223372036854775805⟩ := by
  constructor
  · rfl
  · rfl

end Goful
